import Mathlib

/-!
# CargoSync: manifest mutator and delta server

A shallow embedding of `src/manifest/manifest.go` and of the request handler and
snapshot gateway of `src/server/server.go`, with the properties of the
specification that concern them.

## How the Go values are represented

* A JSON text is held as the tree of its tokens, `Json`.  Number literals, string
  literals and member names keep their text as written, members keep their order
  and duplicates, and white space written around a value is kept by `spaced`
  (white space around a member name or inside an empty array or object is not
  represented).
* `json.Unmarshal` finds a value through the white space around it (`Json.trim`),
  and a `json.RawMessage` receives the value without it.  `json.Marshal` re-emits
  a `json.RawMessage` through `Json.compact`: the white space between tokens is
  dropped and `<`, `>`, `&`, U+2028, U+2029 are written as `\u` escapes.
* The strings the program itself decodes or encodes (the member names at the top
  level of a document, media types, digests, sizes, the `rootfs` type, diff-IDs,
  platform fields) are taken to be written without backslash escapes, so that
  such a string is the text of its literal; the escapes the encoder gives `<`,
  `>`, `&` in such a string appear where the document holding it is written.  A
  map key is written back as a name by `quoteName`.
* `map[string]json.RawMessage` is an association list read at the first match;
  a nil map is `none`.
* A descriptor is the triple of the specification: media type, digest, size; the
  optional fields of `ocispec.Descriptor` (urls, annotations, platform) are left out.
* The content store is a list of blobs keyed by digest, each with labels, plus
  the digests whose ingest the backend fails.
* `digest.FromBytes` (SHA-256) is a parameter `H`.
-/

namespace CargoSync

/-! ## JSON values -/

/-- A character of insignificant white space. -/
inductive Ws where
  | space
  | tab
  | lf
  | cr
  deriving DecidableEq, Repr

/-- A JSON value as it is written; `num` and `str` carry the literal text, and so do the names
of the members. -/
inductive Json where
  | null
  | bool (b : Bool)
  | num (lit : String)
  | str (s : String)
  | arr (items : List Json)
  | obj (members : List (String × Json))
  /-- A value written with white space before and after it. -/
  | spaced (pre : List Ws) (value : Json) (post : List Ws)

mutual
/-- Structural equality test on JSON values. -/
def Json.beq : Json → Json → Bool
  | .null, .null => true
  | .bool a, .bool b => a == b
  | .num a, .num b => a == b
  | .str a, .str b => a == b
  | .arr a, .arr b => Json.beqItems a b
  | .obj a, .obj b => Json.beqMembers a b
  | .spaced a x b, .spaced c y d => a == c && Json.beq x y && b == d
  | _, _ => false
/-- Structural equality test on lists of JSON values. -/
def Json.beqItems : List Json → List Json → Bool
  | [], [] => true
  | x :: xs, y :: ys => Json.beq x y && Json.beqItems xs ys
  | _, _ => false
/-- Structural equality test on member lists. -/
def Json.beqMembers : List (String × Json) → List (String × Json) → Bool
  | [], [] => true
  | (k, x) :: xs, (l, y) :: ys => k == l && Json.beq x y && Json.beqMembers xs ys
  | _, _ => false
end

/-- The characters of a run of white space. -/
def Ws.render : List Ws → String
  | [] => ""
  | .space :: rest => " " ++ Ws.render rest
  | .tab :: rest => "\t" ++ Ws.render rest
  | .lf :: rest => "\n" ++ Ws.render rest
  | .cr :: rest => "\r" ++ Ws.render rest

mutual
/-- The bytes of a JSON value. -/
def Json.render : Json → String
  | .null => "null"
  | .bool true => "true"
  | .bool false => "false"
  | .num lit => lit
  | .str s => "\"" ++ s ++ "\""
  | .arr items => "[" ++ Json.renderItems items ++ "]"
  | .obj members => "\x7b" ++ Json.renderMembers members ++ "\x7d"
  | .spaced pre j post => Ws.render pre ++ Json.render j ++ Ws.render post
/-- Array elements separated by commas. -/
def Json.renderItems : List Json → String
  | [] => ""
  | [j] => Json.render j
  | j :: rest => Json.render j ++ "," ++ Json.renderItems rest
/-- Object members separated by commas. -/
def Json.renderMembers : List (String × Json) → String
  | [] => ""
  | [(k, j)] => "\"" ++ k ++ "\":" ++ Json.render j
  | (k, j) :: rest => "\"" ++ k ++ "\":" ++ Json.render j ++ "," ++ Json.renderMembers rest
end

/-- The value without the white space around it: where `json.Unmarshal` finds the value, and
the bytes a `json.RawMessage` receives for it. -/
def Json.trim : Json → Json
  | .spaced _ j _ => Json.trim j
  | j => j

/-- The escape `\u` followed by four hexadecimal digits. -/
def uEscape (a b c d : Char) : List Char :=
  [Char.ofNat 92, 'u', a, b, c, d]

/-- The characters `json.Marshal` escapes for HTML, in a string it encodes and in a raw
message it re-emits (`escapeHTML`), each with its escape. -/
def htmlEscapes : List (Char × List Char) :=
  [('<', uEscape '0' '0' '3' 'c'), ('>', uEscape '0' '0' '3' 'e'),
   ('&', uEscape '0' '0' '2' '6'),
   (Char.ofNat 0x2028, uEscape '2' '0' '2' '8'), (Char.ofNat 0x2029, uEscape '2' '0' '2' '9')]

/-- The characters `json.Marshal` escapes in a string it encodes: the quote and the backslash,
and those of `htmlEscapes`.  (It escapes the control characters as well; no name read from a
text without backslash escapes holds one, and they are left out.) -/
def stringEscapes : List (Char × List Char) :=
  ('"', [Char.ofNat 92, '"']) :: (Char.ofNat 92, [Char.ofNat 92, Char.ofNat 92]) :: htmlEscapes

/-- How `json.Marshal` writes one character of a raw message (`compact` with `escapeHTML`):
`<`, `>`, `&`, U+2028 and U+2029 become `\u` escapes, every other character stays. -/
def escapeChar (c : Char) : List Char :=
  (htmlEscapes.lookup c).getD [c]

/-- The text of a name or string literal as `json.Marshal` writes it from a raw message. -/
def escapeText (s : String) : String :=
  String.mk (s.data.flatMap escapeChar)

/-- How `json.Marshal` writes one character of a map key. -/
def quoteChar (c : Char) : List Char :=
  (stringEscapes.lookup c).getD [c]

/-- The text of the name `json.Marshal` writes for a map key. -/
def quoteName (k : String) : String :=
  String.mk (k.data.flatMap quoteChar)

mutual
/-- The bytes `json.Marshal` emits for a `json.RawMessage` (`compact` with `escapeHTML`): the
white space between the tokens is dropped, and the names and strings are written with
`escapeText`. -/
def Json.compact : Json → Json
  | .null => .null
  | .bool b => .bool b
  | .num lit => .num lit
  | .str s => .str (escapeText s)
  | .arr items => .arr (Json.compactItems items)
  | .obj members => .obj (Json.compactMembers members)
  | .spaced _ j _ => Json.compact j
/-- The elements of an array, each compacted. -/
def Json.compactItems : List Json → List Json
  | [] => []
  | j :: rest => Json.compact j :: Json.compactItems rest
/-- The members of an object, each compacted. -/
def Json.compactMembers : List (String × Json) → List (String × Json)
  | [] => []
  | (k, j) :: rest => (escapeText k, Json.compact j) :: Json.compactMembers rest
end

/-! ## Errors -/

/-- The errors the embedded functions return. -/
inductive Err where
  | unknownParentType (mediaType : String)
  | notFound (digest : String)
  | missingDiffID
  | digestInvalidFormat
  | digestUnsupported
  | digestInvalidLength
  | jsonSyntax
  | jsonType
  | writeFailed (digest : String)
  | noManifestForPlatform
  deriving DecidableEq, Repr

/-! ## Go maps -/

/-- Lookup of the first entry with the given key. -/
def assoc {α : Type} : List (String × α) → String → Option α
  | [], _ => none
  | (k', v) :: rest, k => if k' = k then some v else assoc rest k

/-- Entries of a non-nil `map[string]json.RawMessage`. -/
abbrev RawMap := List (String × Json)

/-- Assignment `m[k] = v` on the entries: replace the entry, or add one. -/
def RawMap.set : RawMap → String → Json → RawMap
  | [], k, v => [(k, v)]
  | (k', v') :: rest, k, v => if k' = k then (k, v) :: rest else (k', v') :: RawMap.set rest k v

/-- A `map[string]json.RawMessage`; `none` is the nil map. -/
abbrev GoMap := Option RawMap

/-- The index expression `m[k]` with its presence flag; reading a nil map finds nothing. -/
def GoMap.get (m : GoMap) (k : String) : Option Json :=
  match m with
  | none => none
  | some l => assoc l k

/-- The call `m[k].MarshalJSON()`: a nil `RawMessage` (absent key) gives `null`. -/
def GoMap.raw (m : GoMap) (k : String) : Json :=
  (m.get k).getD Json.null

/-- Byte-wise order of Go strings. -/
def strLt : List Char → List Char → Bool
  | _, [] => false
  | [], _ :: _ => true
  | a :: as, b :: bs =>
    if a.toNat < b.toNat then true
    else if b.toNat < a.toNat then false
    else strLt as bs

/-- Insert an entry at its place in key order, replacing an entry of the same key. -/
def insertSorted (k : String) (v : Json) : RawMap → RawMap
  | [] => [(k, v)]
  | (k', v') :: rest =>
    if strLt k.data k'.data then (k, v) :: (k', v') :: rest
    else if k = k' then (k, v) :: rest
    else (k', v') :: insertSorted k v rest

/-- The entries of a map in the order `json.Marshal` writes them: sorted by key. -/
def sortKeys (m : RawMap) : RawMap :=
  m.foldr (fun kv acc => insertSorted kv.1 kv.2 acc) []

/-- The encoding `json.Marshal(m)` of a map of raw messages: the entries in key order, every
key written as a name and every raw message re-emitted through `compact`. -/
def marshalMap (m : GoMap) : Json :=
  match m with
  | none => Json.null
  | some l => Json.obj ((sortKeys l).map (fun kv => (quoteName kv.1, kv.2.compact)))

/-- The decoding `json.Unmarshal(v, &m)` into a map variable holding `into`: `null` sets the
variable to nil, an object adds its members (a later duplicate wins), each raw message being
the member's value without the white space around it; anything else is an error. -/
def unmarshalMap (into : GoMap) (v : Json) : Except Err GoMap :=
  match v.trim with
  | .null => .ok none
  | .obj members =>
    .ok (some (members.foldl (fun m kv => RawMap.set m kv.1 kv.2.trim) (into.getD [])))
  | _ => .error Err.jsonType

/-! ## Bytes and digests -/

/-- The content of a blob or byte slice: a JSON text, or bytes that are no JSON text. -/
inductive Bytes where
  | json (j : Json)
  | other (raw : List Nat)

/-- Number of bytes, `len(p)`. -/
def Bytes.len : Bytes → Nat
  | .json j => j.render.utf8ByteSize
  | .other raw => raw.length

/-- The decoding `json.Unmarshal(p, &m)` of bytes into a fresh map. -/
def unmarshalBytes (p : Bytes) : Except Err GoMap :=
  match p with
  | .json j => unmarshalMap (some []) j
  | .other _ => .error Err.jsonSyntax

/-- Lower-case hexadecimal digit. -/
def isLowerHex (c : Char) : Bool :=
  (48 ≤ c.toNat && c.toNat ≤ 57) || (97 ≤ c.toNat && c.toNat ≤ 102)

/-- Hash size in bytes of the registered digest algorithms. -/
def algorithmSize (alg : String) : Option Nat :=
  if alg = "sha256" then some 32
  else if alg = "sha384" then some 48
  else if alg = "sha512" then some 64
  else none

/-- The check `digest.Parse(s)`: `algorithm:hex` with a registered algorithm and a lower-case
hexadecimal encoding of the right length. -/
def digestParse (s : String) : Except Err String :=
  let alg := s.data.takeWhile (fun c => c != ':')
  match s.data.dropWhile (fun c => c != ':') with
  | [] => .error Err.digestInvalidFormat
  | _ :: enc =>
    if alg = [] ∨ enc = [] then .error Err.digestInvalidFormat
    else
      match algorithmSize (String.mk alg) with
      | none => .error Err.digestUnsupported
      | some n =>
        if enc.length ≠ 2 * n then .error Err.digestInvalidLength
        else if enc.all isLowerHex then .ok s
        else .error Err.digestInvalidFormat

/-! ## Descriptors -/

/-- The descriptor `ocispec.Descriptor`: media type, digest, size. -/
structure Descriptor where
  mediaType : String
  digest : String
  size : Int
  deriving DecidableEq, Repr

/-- Media type `images.MediaTypeDockerSchema2Manifest`. -/
def MediaTypeDockerSchema2Manifest : String := "application/vnd.docker.distribution.manifest.v2+json"
/-- Media type `images.MediaTypeDockerSchema2ManifestList`. -/
def MediaTypeDockerSchema2ManifestList : String :=
  "application/vnd.docker.distribution.manifest.list.v2+json"
/-- Media type `images.MediaTypeDockerSchema2LayerGzip`. -/
def MediaTypeDockerSchema2LayerGzip : String := "application/vnd.docker.image.rootfs.diff.tar.gzip"
/-- Media type `ocispec.MediaTypeImageManifest`. -/
def MediaTypeImageManifest : String := "application/vnd.oci.image.manifest.v1+json"
/-- Media type `ocispec.MediaTypeImageLayerGzip`. -/
def MediaTypeImageLayerGzip : String := "application/vnd.oci.image.layer.v1.tar+gzip"
/-- Media type `ocispec.MediaTypeImageIndex`. -/
def MediaTypeImageIndex : String := "application/vnd.oci.image.index.v1+json"

/-- The label `containerd.io/uncompressed`. -/
def containerdUncompressed : String := "containerd.io/uncompressed"

/-- Field names are matched by `json.Unmarshal` without regard to (ASCII) letter case. -/
def keyIs (k name : String) : Bool :=
  k.data.map Char.toLower == name.data.map Char.toLower

/-- Value of a string of decimal digits. -/
def digitsToNat : List Char → Nat → Option Nat
  | [], acc => some acc
  | c :: cs, acc => if c.isDigit then digitsToNat cs (10 * acc + (c.toNat - 48)) else none

/-- The conversion `strconv.ParseInt(lit, 10, 64)` of a JSON number literal. -/
def parseInt64 (lit : String) : Option Int :=
  match lit.data with
  | [] => none
  | '-' :: ds =>
    if ds = [] then none
    else (digitsToNat ds 0).bind (fun n => if n ≤ 2 ^ 63 then some (-(n : Int)) else none)
  | ds => (digitsToNat ds 0).bind (fun n => if n < 2 ^ 63 then some (n : Int) else none)

/-- Decode one object member into a descriptor. -/
def Descriptor.decodeMember (d : Descriptor) (k : String) (v : Json) : Except Err Descriptor :=
  if keyIs k "mediaType" then
    match v.trim with
    | .str s => .ok { d with mediaType := s }
    | .null => .ok d
    | _ => .error Err.jsonType
  else if keyIs k "digest" then
    match v.trim with
    | .str s => .ok { d with digest := s }
    | .null => .ok d
    | _ => .error Err.jsonType
  else if keyIs k "size" then
    match v.trim with
    | .num lit =>
      match parseInt64 lit with
      | some n => .ok { d with size := n }
      | none => .error Err.jsonType
    | .null => .ok d
    | _ => .error Err.jsonType
  else .ok d

/-- Decode the members of an object into a descriptor, in order. -/
def Descriptor.decodeMembers (d : Descriptor) : List (String × Json) → Except Err Descriptor
  | [] => .ok d
  | (k, v) :: rest =>
    match Descriptor.decodeMember d k v with
    | .ok d' => Descriptor.decodeMembers d' rest
    | .error e => .error e

/-- The decoding `json.Unmarshal(p, &r)` into a zero descriptor: `null` leaves it zero, an
object sets the fields its members name and skips every other member, any other value is a
type error. -/
def decodeDescriptor (p : Json) : Except Err Descriptor :=
  match p.trim with
  | .null => .ok ⟨"", "", 0⟩
  | .obj members => Descriptor.decodeMembers ⟨"", "", 0⟩ members
  | _ => .error Err.jsonType

/-- The encoding `json.Marshal(desc)`: the three fields in the order of the struct. -/
def encodeDescriptor (d : Descriptor) : Json :=
  .obj [("mediaType", .str d.mediaType), ("digest", .str d.digest), ("size", .num (toString d.size))]

/-- Function `GetDescriptor` of `manifest.go`. -/
def GetDescriptor (m : Json) : Except Err Descriptor :=
  decodeDescriptor m

/-- The decoding `json.Unmarshal(layersJSON, &layers)` into a slice of descriptors. -/
def decodeLayers (p : Json) : Except Err (List Descriptor) :=
  match p.trim with
  | .null => .ok []
  | .arr items => items.mapM decodeDescriptor
  | _ => .error Err.jsonType

/-- The struct `ocispec.RootFS`. -/
structure RootFS where
  type : String
  diffIDs : List String
  deriving DecidableEq, Repr

/-- Decode one element of `diff_ids`: a string, or `null` for the empty digest. -/
def decodeDiffID (p : Json) : Except Err String :=
  match p.trim with
  | .str s => .ok s
  | .null => .ok ""
  | _ => .error Err.jsonType

/-- Decode one object member into a `RootFS`. -/
def RootFS.decodeMember (r : RootFS) (k : String) (v : Json) : Except Err RootFS :=
  if keyIs k "type" then
    match v.trim with
    | .str s => .ok { r with type := s }
    | .null => .ok r
    | _ => .error Err.jsonType
  else if keyIs k "diff_ids" then
    match v.trim with
    | .arr items =>
      match items.mapM decodeDiffID with
      | .ok ids => .ok { r with diffIDs := ids }
      | .error e => .error e
    | .null => .ok { r with diffIDs := [] }
    | _ => .error Err.jsonType
  else .ok r

/-- Decode the members of an object into a `RootFS`, in order. -/
def RootFS.decodeMembers (r : RootFS) : List (String × Json) → Except Err RootFS
  | [] => .ok r
  | (k, v) :: rest =>
    match RootFS.decodeMember r k v with
    | .ok r' => RootFS.decodeMembers r' rest
    | .error e => .error e

/-- The decoding `json.Unmarshal(p, &rootFS)` into a zero `RootFS`: members other than `type`
and `diff_ids` are skipped. -/
def decodeRootFS (p : Json) : Except Err RootFS :=
  match p.trim with
  | .null => .ok ⟨"", []⟩
  | .obj members => RootFS.decodeMembers ⟨"", []⟩ members
  | _ => .error Err.jsonType

/-- The encoding `json.Marshal(rootFS)`. -/
def encodeRootFS (r : RootFS) : Json :=
  .obj [("type", .str r.type), ("diff_ids", .arr (r.diffIDs.map Json.str))]

/-! ## Content store -/

/-- A blob of the content store with its labels. -/
structure Blob where
  data : Bytes
  labels : List (String × String)

/-- The content store: blobs by digest, and the digests whose ingest the backend fails. -/
structure Store where
  blobs : List (String × Blob)
  rejects : List String

/-- The call `contentStore.Info(ctx, dgst)`: the labels of the blob. -/
def Store.Info (cs : Store) (dgst : String) : Except Err (List (String × String)) :=
  match assoc cs.blobs dgst with
  | some b => .ok b.labels
  | none => .error (Err.notFound dgst)

/-- The call `content.ReadBlob(ctx, contentStore, desc)`: the bytes stored under the digest. -/
def ReadBlob (cs : Store) (desc : Descriptor) : Except Err Bytes :=
  match assoc cs.blobs desc.digest with
  | some b => .ok b.data
  | none => .error (Err.notFound desc.digest)

/-- The call `content.WriteBlob(ctx, contentStore, ref, reader, desc, opts)`: nothing to do when
the digest is already present; otherwise the bytes are ingested and committed under
`desc.digest` with the labels, the commit checking size and digest. -/
def WriteBlob (H : Bytes → String) (cs : Store) (p : Bytes) (desc : Descriptor)
    (labels : List (String × String)) : Except Err Store :=
  if (assoc cs.blobs desc.digest).isSome then .ok cs
  else if desc.digest ∈ cs.rejects then .error (Err.writeFailed desc.digest)
  else if H p ≠ desc.digest ∨ (p.len : Int) ≠ desc.size then .error (Err.writeFailed desc.digest)
  else .ok { cs with blobs := cs.blobs ++ [(desc.digest, ⟨p, labels⟩)] }

/-! ## Manifest mutator (`manifest.go`) -/

/-- The struct `ManifestImpl`. -/
structure ManifestImpl where
  D : GoMap
  Desc : Descriptor

/-- How a call ended: returned nil, returned an error, or panicked (assignment to an entry of
a nil map). -/
inductive Ret where
  | ok
  | error (e : Err)
  | panic
  deriving DecidableEq, Repr

/-- Function `LoadManifestImpl` (and `LoadManifest`, which has the same body). -/
def LoadManifestImpl (cs : Store) (desc : Descriptor) : Except Err ManifestImpl :=
  match ReadBlob cs desc with
  | .error e => .error e
  | .ok p =>
    match unmarshalBytes p with
    | .error e => .error e
    | .ok m => .ok ⟨m, desc⟩

/-- Function `LoadManifest`. -/
def LoadManifest (cs : Store) (desc : Descriptor) : Except Err ManifestImpl :=
  LoadManifestImpl cs desc

/-- One call of `content.WriteBlob`: the bytes, the descriptor and the labels passed. -/
structure WriteReq where
  data : Bytes
  desc : Descriptor
  labels : List (String × String)

/-- What `patchImageConfig` hands back: how it ended, the result descriptor, the store, and the
`WriteBlob` calls it made. -/
structure PatchResult where
  ret : Ret
  desc : Descriptor
  cs : Store
  writes : List WriteReq

/-- The bytes `patchImageConfig` patches: the blob of the config descriptor when
`imageConfigBytes` is nil, else `imageConfigBytes`. -/
def currentConfig (cs : Store) (imageConfig : Descriptor) (imageConfigBytes : Option Bytes) :
    Except Err Bytes :=
  match imageConfigBytes with
  | none => ReadBlob cs imageConfig
  | some b => .ok b

/-- Function `patchImageConfig`. -/
def patchImageConfig (H : Bytes → String) (cs : Store) (imageConfig : Descriptor)
    (newLayer : String) (imageConfigBytes : Option Bytes) : PatchResult :=
  let result := imageConfig
  -- Get the current image configuration.
  match currentConfig cs imageConfig imageConfigBytes with
  | .error e => ⟨.error e, result, cs, []⟩
  | .ok p =>
    -- Deserialize the image configuration to a generic json object.
    match unmarshalBytes p with
    | .error e => ⟨.error e, result, cs, []⟩
    | .ok m =>
      -- Pull the rootfs section out.
      match decodeRootFS (m.raw "rootfs") with
      | .error e => ⟨.error e, result, cs, []⟩
      | .ok rootFS =>
        let rootFS := { rootFS with diffIDs := [] }  -- clear the diff_ids
        let rootFS := { rootFS with diffIDs := rootFS.diffIDs ++ [newLayer] }
        let p := encodeRootFS rootFS
        match m with
        | none => ⟨.panic, result, cs, []⟩  -- m["rootfs"] = p on a nil map
        | some entries =>
          let m : GoMap := some (RawMap.set entries "rootfs" p)
          -- Convert the configuration back to bytes, and write it to the content store.
          let p := Bytes.json (marshalMap m)
          let result := { result with digest := H p, size := (p.len : Int) }
          match WriteBlob H cs p result [] with
          | .error e => ⟨.error e, result, cs, [⟨p, result, []⟩]⟩
          | .ok cs' => ⟨.ok, result, cs', [⟨p, result, []⟩]⟩

/-- State after a call of `ReplaceWithLayer`: how it ended, the receiver, the store, and the
`WriteBlob` calls made, in order. -/
structure Outcome where
  ret : Ret
  m : ManifestImpl
  cs : Store
  writes : List WriteReq

/-- The media type the new layer gets for a parent manifest media type (the `switch`). -/
def layerMediaTypeFor (parent : String) : Option String :=
  if parent = MediaTypeDockerSchema2Manifest then some MediaTypeDockerSchema2LayerGzip
  else if parent = MediaTypeImageManifest then some MediaTypeImageLayerGzip
  else none

/-- The labels that anchor the config and the layers for the garbage collector. -/
def gcLabels (configDigest : String) (layers : List Descriptor) : List (String × String) :=
  ("containerd.io/gc.ref.content.0", configDigest) ::
    layers.enum.map (fun il => ("containerd.io/gc.ref.content." ++ toString (il.1 + 1), il.2.digest))

/-- Method `ManifestImpl.ReplaceWithLayer`.  The local `d` is the map `m.D` itself, so every
assignment to `d` is an assignment to the receiver's map. -/
def ReplaceWithLayer (H : Bytes → String) (cs : Store) (m : ManifestImpl) (layer : Descriptor)
    (imageConfig : Option Bytes) : Outcome :=
  -- Make sure the new layer uses the same content type as the manifest expects.
  match layerMediaTypeFor m.Desc.mediaType with
  | none => ⟨.error (Err.unknownParentType m.Desc.mediaType), m, cs, []⟩
  | some mt =>
    let layer := { layer with mediaType := mt }
    -- Get the diffId for the diff descriptor.
    match cs.Info layer.digest with
    | .error e => ⟨.error e, m, cs, []⟩
    | .ok labels =>
      match assoc labels containerdUncompressed with
      | none => ⟨.error Err.missingDiffID, m, cs, []⟩
      | some diffIDStr =>
        match digestParse diffIDStr with
        | .error e => ⟨.error e, m, cs, []⟩
        | .ok diffIDDigest =>
          -- Deserialize the image config
          match GetDescriptor (m.D.raw "config") with
          | .error e => ⟨.error e, m, cs, []⟩
          | .ok imageConfigDesc =>
            -- Patch the config and store it in the content store.
            match patchImageConfig H cs imageConfigDesc diffIDDigest imageConfig with
            | ⟨.error e, _, cs, ws⟩ => ⟨.error e, m, cs, ws⟩
            | ⟨.panic, _, cs, ws⟩ => ⟨.panic, m, cs, ws⟩
            | ⟨.ok, imageConfigDesc, cs, ws⟩ =>
              -- Store the image config back into our json object.
              match m.D with
              | none => ⟨.panic, m, cs, ws⟩
              | some d =>
                let d := RawMap.set d "config" (encodeDescriptor imageConfigDesc)
                -- Update the layers on the manifest.
                match decodeLayers (GoMap.raw (some d) "layers") with
                | .error e => ⟨.error e, { m with D := some d }, cs, ws⟩
                | .ok _ =>
                  let layers : List Descriptor := []  -- clear the layers
                  let layers := layers ++ [layer]
                  let d := RawMap.set d "layers" (Json.arr (layers.map encodeDescriptor))
                  let labels := gcLabels imageConfigDesc.digest layers
                  -- Save our new image manifest.
                  let manifestBytes := Bytes.json (marshalMap (some d))
                  let newDesc :=
                    { m.Desc with digest := H manifestBytes, size := (manifestBytes.len : Int) }
                  match WriteBlob H cs manifestBytes newDesc labels with
                  | .error e =>
                    ⟨.error e, { m with D := some d }, cs, ws ++ [⟨manifestBytes, newDesc, labels⟩]⟩
                  | .ok cs' =>
                    ⟨.ok, ⟨some d, newDesc⟩, cs', ws ++ [⟨manifestBytes, newDesc, labels⟩]⟩

/-- Method `ManifestImpl.Descriptor`. -/
def ManifestImpl.Descriptor (m : ManifestImpl) : Descriptor :=
  m.Desc

/-- The text `string(raw)` of a raw message; the nil raw message of an absent key is empty. -/
def rawText : Option Json → String
  | none => ""
  | some j => j.render

/-- The comparison `strings.EqualFold(s, t)`, on ASCII letters. -/
def EqualFold (s t : String) : Bool :=
  s.data.map Char.toLower == t.data.map Char.toLower

/-- The test of the loop: the raw `os` is the quoted `os`, the raw `architecture` is the quoted
`arch` up to letter case. -/
def platformMatches (platform : GoMap) (os arch : String) : Bool :=
  rawText (platform.get "os") == "\"" ++ os ++ "\"" &&
    EqualFold (rawText (platform.get "architecture")) ("\"" ++ arch ++ "\"")

/-- The loop over `manifestList`.  The map `manifest_json` is declared before the loop and
decoded into at every round; `platform` is fresh at every round. -/
def scanManifests (os arch : String) : GoMap → List Json → Except Err Descriptor
  | _, [] => .error Err.noManifestForPlatform
  | manifest_json, manifest :: rest =>
    match unmarshalMap manifest_json manifest with
    | .error e => .error e
    | .ok manifest_json =>
      match manifest_json.get "platform" with
      | none => .error Err.jsonSyntax  -- decoding of an empty input
      | some platformRaw =>
        match unmarshalMap (some []) platformRaw with
        | .error e => .error e
        | .ok platform =>
          if platformMatches platform os arch then GetDescriptor manifest
          else scanManifests os arch manifest_json rest

/-- The decoding `json.Unmarshal(manifestListJSON, &manifestList)` into a slice of raw
messages. -/
def decodeRawList (p : Json) : Except Err (List Json) :=
  match p.trim with
  | .null => .ok []
  | .arr items => .ok (items.map Json.trim)
  | _ => .error Err.jsonType

/-- Function `LoadManifestImplFromList`. -/
def LoadManifestImplFromList (cs : Store) (desc : Descriptor) (os arch : String) :
    Except Err ManifestImpl :=
  match ReadBlob cs desc with
  | .error e => .error e
  | .ok p =>
    match unmarshalBytes p with
    | .error e => .error e
    | .ok m =>
      match decodeRawList (m.raw "manifests") with
      | .error e => .error e
      | .ok manifestList =>
        -- iterate over the manifests and choose the one with the wanted platform
        match scanManifests os arch (some []) manifestList with
        | .error e => .error e
        | .ok desc => LoadManifestImpl cs desc

/-- Function `LoadManifestFromList`. -/
def LoadManifestFromList (cs : Store) (desc : Descriptor) (os arch : String) :
    Except Err ManifestImpl :=
  match ReadBlob cs desc with
  | .error e => .error e
  | .ok p =>
    match unmarshalBytes p with
    | .error e => .error e
    | .ok m =>
      match decodeRawList (m.raw "manifests") with
      | .error e => .error e
      | .ok manifestList =>
        -- iterate over the manifests and choose the one with the wanted platform
        match scanManifests os arch (some []) manifestList with
        | .error e => .error e
        | .ok desc => LoadManifest cs desc

/-! ## Snapshot gateway and request handler (`server.go`) -/

/-- The gRPC status codes the handler's errors carry; an error that is not a status travels
as `Unknown`. -/
inductive Code where
  | OK
  | InvalidArgument
  | Unknown
  deriving DecidableEq, Repr

/-- A gRPC status: code and message. -/
structure Status where
  code : Code
  message : String
  deriving DecidableEq, Repr

/-- The kinds of a snapshot, `snapshots.Kind`. -/
inductive Kind where
  | KindUnknown
  | KindView
  | KindActive
  | KindCommitted
  deriving DecidableEq, Repr

/-- What the snapshotter records of a snapshot: its kind and its parent. -/
structure SnapInfo where
  kind : Kind
  parent : String
  deriving DecidableEq, Repr

/-- A mount of a snapshot, named by the snapshot it mounts. -/
structure Mount where
  source : String
  deriving DecidableEq, Repr

/-- The snapshotter: its snapshots by name. -/
structure Snapshotter where
  snapshots : List (String × SnapInfo)
  deriving DecidableEq, Repr

/-- The call `sn.Stat(ctx, key)`. -/
def Snapshotter.Stat (sn : Snapshotter) (key : String) : Except String SnapInfo :=
  match assoc sn.snapshots key with
  | some info => .ok info
  | none => .error ("snapshot " ++ key ++ " does not exist: not found")

/-- The call `sn.Mounts(ctx, key)`: the mounts of an active or view snapshot. -/
def Snapshotter.Mounts (sn : Snapshotter) (key : String) : Except String (List Mount) :=
  match assoc sn.snapshots key with
  | none => .error ("snapshot " ++ key ++ " does not exist: not found")
  | some info =>
    if info.kind = Kind.KindActive ∨ info.kind = Kind.KindView then .ok [⟨key⟩]
    else .error ("requested snapshot " ++ key ++ " not active")

/-- The call `sn.View(ctx, key, parent)`: a new read-only snapshot `key` on a committed
parent. -/
def Snapshotter.View (sn : Snapshotter) (key parent : String) :
    Except String (List Mount × Snapshotter) :=
  if (assoc sn.snapshots key).isSome then .error ("snapshot " ++ key ++ ": already exists")
  else
    match assoc sn.snapshots parent with
    | none => .error ("parent snapshot " ++ parent ++ " does not exist: not found")
    | some info =>
      if info.kind = Kind.KindCommitted then
        .ok ([⟨key⟩], ⟨sn.snapshots ++ [(key, ⟨Kind.KindView, parent⟩)]⟩)
      else .error ("parent " ++ parent ++ " is not committed snapshot")

/-- The call `sn.Remove(ctx, key)`: the snapshotter afterwards, and whether an error came
back (no such snapshot, or a snapshot with children). -/
def Snapshotter.Remove (sn : Snapshotter) (key : String) : Snapshotter × Bool :=
  if (assoc sn.snapshots key).isSome ∧ ¬ sn.snapshots.any (fun s => s.2.parent == key) then
    (⟨sn.snapshots.filter (fun s => s.1 != key)⟩, false)
  else (sn, true)

/-- A containerd image: its reference, the diff-IDs `image.RootFS` returns (or its failure),
and the size `image.Size` returns (or its failure). -/
structure Image where
  name : String
  rootFS : Option (List String)
  size : Option Nat
  deriving DecidableEq, Repr

/-- Function `getMounts`.  `ChainID` is `identity.ChainID(..).String()` and `now` is
`time.Now().Format(time.RFC3339Nano)`.  In the `else` branch `key := ...` declares a new
variable of that block; the `key` returned is the one declared before the `if`. -/
def getMounts (ChainID : List String → String) (now : String) (sn : Snapshotter)
    (image : Image) : Except Status (List Mount × String) × Snapshotter :=
  -- get diffIDs of image
  match image.rootFS with
  | none => (.error ⟨Code.InvalidArgument, "error getting image rootfs"⟩, sn)
  | some diffIDs =>
    -- get snapshot info - image should be unpacked
    match sn.Stat (ChainID diffIDs) with
    | .error e => (.error ⟨Code.InvalidArgument, "error getting snapshot info: " ++ e⟩, sn)
    | .ok info =>
      -- get mounts for snapshots
      let key := ""
      if info.kind = Kind.KindActive then
        let key := ""
        match sn.Mounts (ChainID diffIDs) with
        | .error e => (.error ⟨Code.Unknown, e⟩, sn)
        | .ok mounts => (.ok (mounts, key), sn)
      else
        let key' := ChainID diffIDs ++ "-view-" ++ now
        match sn.View key' (ChainID diffIDs) with
        | .error e => (.error ⟨Code.Unknown, e⟩, sn)
        | .ok (mounts, sn') => (.ok (mounts, key), sn')

/-- The constant `CHUNK_SIZE`. -/
def CHUNK_SIZE : Nat := 32 * 1024

/-- The constant `RSYNC_BLOCK_SIZE`. -/
def RSYNC_BLOCK_SIZE : Nat := 382

/-- The last element of `strings.Split(ref, "/")`: the text after the last `/`. -/
def lastSegment : List Char → List Char → List Char
  | [], acc => acc.reverse
  | c :: cs, acc => if c = '/' then lastSegment cs [] else lastSegment cs (c :: acc)

/-- The expression `strings.Split(ref, "/")[len(strings.Split(ref, "/"))-1]`. -/
def imageName (ref : String) : String :=
  String.mk (lastSegment ref.data [])

/-- The reads of the streaming loop: `file.Read(buf)` fills up to `size` bytes until the end
of the file; `fuel` bounds the number of reads. -/
def readChunks (size : Nat) : Nat → List Nat → List (List Nat)
  | 0, _ => []
  | fuel + 1, bytes =>
    if bytes = [] then [] else bytes.take size :: readChunks size fuel (bytes.drop size)

/-- What lies outside the handler: the registry behind `Pull`, the temporary mount, the two
subprocesses, the clock, and the client's end of the stream. -/
structure Env where
  /-- The image `Pull` fetches for a reference, if the pull succeeds. -/
  registry : String → Option Image
  /-- The directory `WithTempMount` mounts on, if the mount succeeds. -/
  tempMount : List Mount → Option String
  /-- The batch file `rsync` writes for `(to_root, from_root)`, if it exits with success. -/
  rsync : String → String → Option (List Nat)
  /-- The output of `zstd` on a file's bytes, if it exits with success. -/
  zstd : List Nat → Option (List Nat)
  /-- The formatted time `getMounts` reads. -/
  now : String
  /-- How many `stream.Send` calls succeed before one fails (`none`: all succeed). -/
  sendLimit : Option Nat
  /-- The function `identity.ChainID`. -/
  ChainID : List String → String

/-- The state the handler works on: the process-wide `mutexes` map (path to locked or not),
the server's files, the images containerd knows, and the snapshotter. -/
structure World where
  mutexes : List (String × Bool)
  files : List (String × List Nat)
  images : List (String × Image)
  sn : Snapshotter
  deriving DecidableEq, Repr

/-- How a call of the handler ends: it returns a status, or it never returns because it waits
in `Lock` on a mutex nobody will release. -/
inductive Ending where
  | returned (s : Status)
  | blocked
  deriving DecidableEq, Repr

/-- The outcome of a call of the handler: how it ended, the chunks sent, the state left. -/
structure Reply where
  ending : Ending
  sent : List (List Nat)
  world : World
  deriving DecidableEq, Repr

/-- Set the lock bit of a path in the `mutexes` map. -/
def setLock (mutexes : List (String × Bool)) (path : String) (locked : Bool) :
    List (String × Bool) :=
  mutexes.map (fun e => if e.1 = path then (e.1, locked) else e)

/-- The streaming loop: read the file in chunks of `CHUNK_SIZE` and send each; a failing
`Send` ends the call with an error status. -/
def sendFile (env : Env) (bytes : List Nat) : Option Status × List (List Nat) :=
  let chunks := readChunks CHUNK_SIZE bytes.length bytes
  match env.sendLimit with
  | none => (none, chunks)
  | some n =>
    if n < chunks.length then
      (some ⟨Code.InvalidArgument, "error sending diff patch file"⟩, chunks.take n)
    else (none, chunks)

/-- The lines `GetImage`, and on failure `Pull` with unpack: the image, and the state with
the pulled image recorded and its committed snapshot present. -/
def getOrPull (env : Env) (w : World) (ref : String) : Option (Image × World) :=
  match assoc w.images ref with
  | some image => some (image, w)
  | none =>
    match env.registry ref with
    | none => none
    | some image =>
      let chain := env.ChainID (image.rootFS.getD [])
      let sn : Snapshotter :=
        if (assoc w.sn.snapshots chain).isSome then w.sn
        else ⟨w.sn.snapshots ++ [(chain, ⟨Kind.KindCommitted, ""⟩)]⟩
      some (image, { w with images := w.images ++ [(ref, image)], sn := sn })

/-- A request of `CalculateDeltaDiffs`: the references of base and target. -/
structure CalcImageDiffsRequest where
  Image1 : String
  Image2 : String
  deriving DecidableEq, Repr

/-- Create or overwrite a file. -/
def writeFile (files : List (String × List Nat)) (path : String) (bytes : List Nat) :
    List (String × List Nat) :=
  (path, bytes) :: files.filter (fun f => f.1 != path)

/-- The body of the two nested `WithTempMount` closures: differ, compressor, release of the
mutex, streaming, statistics. -/
def createAndSend (env : Env) (w : World) (image1name image2name patch_location : String)
    (image2 : Image) (from_root to_root : String) : Option Status × List (List Nat) × World :=
  let patch_filename := "delta-patch-from-" ++ image1name ++ "-to-" ++ image2name
  -- execute rsync between from and to and create binary diff file
  match env.rsync to_root from_root with
  | none => (some ⟨Code.InvalidArgument, "error creating diff patch"⟩, [], w)
  | some patch =>
    let w := { w with files := writeFile w.files ("/tmp/" ++ patch_filename) patch }
    let patch_location' := "/tmp/" ++ patch_filename
    -- Compress the diff patch file with zstd
    let out := env.zstd patch
    let w := match out with
      | some z => { w with files := writeFile w.files (patch_location' ++ ".zst") z }
      | none => w
    let w := { w with mutexes := setLock w.mutexes patch_location false }  -- mutex.Unlock()
    match out with
    | none => (some ⟨Code.InvalidArgument, "error creating diff patch"⟩, [], w)
    | some _ =>
      match assoc w.files (patch_location' ++ ".zst") with
      | none => (some ⟨Code.InvalidArgument, "error reading diff patch file"⟩, [], w)
      | some bytes =>
        match sendFile env bytes with
        | (some st, sent) => (some st, sent, w)
        | (none, sent) =>
          -- file size of the patch, then the image size
          match image2.size with
          | none => (some ⟨Code.Unknown, "error getting image info"⟩, sent, w)
          | some _ => (none, sent, w)

/-- Method `deltaDiffService.CalculateDeltaDiffs`. -/
def CalculateDeltaDiffs (env : Env) (w : World) (r : CalcImageDiffsRequest) : Reply :=
  -- Before anything, check if the diff file already exists
  let image1name := imageName r.Image1
  let image2name := imageName r.Image2
  let patch_location := "/tmp/delta-patch-from-" ++ image1name ++ "-to-" ++ image2name ++ ".zst"
  -- the mutex of the path, made on first use
  let w := if (assoc w.mutexes patch_location).isSome then w
    else { w with mutexes := w.mutexes ++ [(patch_location, false)] }
  -- mutexes[patch_location].Lock()
  if assoc w.mutexes patch_location = some true then ⟨.blocked, [], w⟩
  else
    let w := { w with mutexes := setLock w.mutexes patch_location true }
    match assoc w.files patch_location with
    | some bytes =>
      -- the patchfile already exists: unlock and send it
      let w := { w with mutexes := setLock w.mutexes patch_location false }
      match sendFile env bytes with
      | (some st, sent) => ⟨.returned st, sent, w⟩
      | (none, sent) => ⟨.returned ⟨Code.OK, ""⟩, sent, w⟩
    | none =>
      -- Check if image references are provided
      if r.Image1 = "" ∨ r.Image2 = "" then
        ⟨.returned ⟨Code.InvalidArgument, "image references are required"⟩, [], w⟩
      else
        -- Get images; if they don't exist, pull them
        match getOrPull env w r.Image1 with
        | none => ⟨.returned ⟨Code.InvalidArgument, "error pulling image " ++ r.Image1⟩, [], w⟩
        | some (image1, w) =>
          match getOrPull env w r.Image2 with
          | none =>
            ⟨.returned ⟨Code.InvalidArgument, "error pulling image " ++ r.Image2⟩, [], w⟩
          | some (image2, w) =>
            -- Get mounts for snapshots
            match getMounts env.ChainID env.now w.sn image1 with
            | (.error e, sn) =>
              ⟨.returned ⟨Code.InvalidArgument, "error getting mounts (lower): " ++ e.message⟩,
                [], { w with sn := sn }⟩
            | (.ok (mounts1, key1), sn) =>
              let w := { w with sn := sn }
              match getMounts env.ChainID env.now w.sn image2 with
              | (.error e, sn) =>
                -- deferred: Remove(key1)
                ⟨.returned ⟨Code.InvalidArgument, "error getting mounts (upper): " ++ e.message⟩,
                  [], { w with sn := (sn.Remove key1).1 }⟩
              | (.ok (mounts2, key2), sn) =>
                let w := { w with sn := sn }
                let (st, sent, w) :=
                  match env.tempMount mounts1 with
                  | none => (some (Status.mk Code.Unknown "mount failed"), [], w)
                  | some from_root =>
                    match env.tempMount mounts2 with
                    | none => (some (Status.mk Code.Unknown "mount failed"), [], w)
                    | some to_root =>
                      createAndSend env w image1name image2name patch_location image2
                        from_root to_root
                -- deferred: Remove(key2), then Remove(key1)
                let w := { w with sn := ((w.sn.Remove key2).1.Remove key1).1 }
                match st with
                | some e =>
                  ⟨.returned ⟨Code.InvalidArgument, "error creating snapshot diffs: " ++ e.message⟩,
                    sent, w⟩
                | none => ⟨.returned ⟨Code.OK, ""⟩, sent, w⟩

/-! ## Client (`client.go`) -/

/-- The expression `strings.Split(ref, ":")[0]`: the text before the first `:`. -/
def beforeColon (ref : String) : String :=
  String.mk (ref.data.takeWhile (fun c => c != ':'))

/-- Whether `sub` occurs in `s` as a run of consecutive characters. -/
def containsChars : List Char → List Char → Bool
  | [], sub => sub.isEmpty
  | c :: cs, sub => sub.isPrefixOf (c :: cs) || containsChars cs sub

/-- The test `strings.Contains(s, substr)`. -/
def Contains (s substr : String) : Bool :=
  containsChars s.data substr.data

/-- The test of the loop over `image_list`. -/
def olderVersion (image2ref name : String) : Bool :=
  Contains name (beforeColon image2ref) && name != image2ref

/-- The loop of `main` that looks for an older version of `image2ref` among the names of the
local images; `image1ref` is the empty string before the loop and is assigned at every image
that passes the test. -/
def chooseBase (image_list : List String) (image2ref : String) : String :=
  image_list.foldl (fun image1ref name => if olderVersion image2ref name then name else image1ref)
    ""

/-- How the stream of `CalculateDeltaDiffs` ends at the client: `io.EOF` after the server
returned OK, or an error of the transport or of the server. -/
inductive StreamEnd where
  | eof
  | transportError (message : String)
  deriving DecidableEq, Repr

/-- What `resp.Recv()` delivers: the chunks, then the end. -/
structure DeltaStream where
  chunks : List (List Nat)
  ending : StreamEnd
  deriving DecidableEq, Repr

/-- What `main` has done when it reaches the manifest request (or has returned before): the
client's files, the subprocess command lines run, the warnings printed, and whether it goes on
to request the manifest and apply the patch. -/
structure Fetched where
  files : List (String × List Nat)
  ran : List String
  warnings : List String
  proceeds : Bool
  deriving DecidableEq, Repr

/-- The receive loop: every chunk received is appended to the file; any error of `Recv`, the
end of the stream included, leaves the loop.  `writeLimit` is the number of writes that succeed
before one fails (`none`: all succeed); the result is the file and whether a write failed. -/
def receiveLoop (writeLimit : Option Nat) : List (List Nat) → List Nat → Nat → List Nat × Bool
  | [], file, _ => (file, false)
  | chunk :: rest, file, written =>
    if writeLimit = some written then (file, true)
    else receiveLoop writeLimit rest (file ++ chunk) (written + 1)

/-- Lines 106 to 145 of `main`: remove an old output file, create it, receive the stream into
it, run the decompressor on it.  `unzstd` is the output of `zstd -fd` on a file's bytes when it
exits with success. -/
def receiveAndDecompress (unzstd : List Nat → Option (List Nat)) (writeLimit : Option Nat)
    (files : List (String × List Nat)) (image1name image2name : String)
    (resp : DeltaStream) : Fetched :=
  let filepath := "/tmp/delta-diff-patch-from-" ++ image1name ++ "-to-" ++ image2name ++ ".zst"
  -- Delete file if it already exists, then create file to write stream to
  let files := writeFile files filepath []
  -- Receive stream (of delta diff file chunks) and write to file
  match receiveLoop writeLimit resp.chunks [] 0 with
  | (file, true) => ⟨writeFile files filepath file, [], ["error writing to file"], false⟩
  | (file, false) =>
    let files := writeFile files filepath file
    -- Decompress the delta diff file
    match unzstd file with
    | some raw =>
      ⟨writeFile files ("/tmp/delta-diff-patch-from-" ++ image1name ++ "-to-" ++ image2name) raw,
        ["zstd -fd " ++ filepath], [], true⟩
    | none => ⟨files, ["zstd -fd " ++ filepath], ["WARNING (decompress command)"], true⟩

/-! ## `GetManifest` (`server.go`) -/

/-- The request of `GetManifest`. -/
structure ManifestRequest where
  Image : String
  Os : String
  Arch : String
  deriving DecidableEq, Repr

/-- The response of `GetManifest`: the manifest object that is serialized into `Manifest`, and
the bytes of `ImageConfig`. -/
structure ManifestResponse where
  Manifest : ManifestImpl
  ImageConfig : Bytes

/-- Method `deltaDiffService.GetManifest`.  `GOOS` and `GOARCH` are the platform of the server,
`target` gives the target descriptor of the image that `GetImage`, or else `Pull`, finds for a
reference, and `cs` is the content store after that. -/
def GetManifest (GOOS GOARCH : String) (target : String → Option Descriptor) (cs : Store)
    (r : ManifestRequest) : Except Status ManifestResponse :=
  -- Check if image reference is provided
  if r.Image = "" then .error ⟨Code.InvalidArgument, "image reference is required"⟩
  else
    match target r.Image with
    | none => .error ⟨Code.InvalidArgument, "error pulling image " ++ r.Image⟩
    | some imageTarget =>
      match LoadManifest cs imageTarget with
      | .error _ => .error ⟨Code.InvalidArgument, "error loading manifest"⟩
      | .ok target_manifest =>
        match LoadManifestImpl cs imageTarget with
        | .error _ => .error ⟨Code.InvalidArgument, "error loading manifest impl"⟩
        | .ok m_impl =>
          match (if target_manifest.Descriptor.mediaType = MediaTypeDockerSchema2ManifestList then
              -- Retrieve manifest for specific platform
              match LoadManifestFromList cs imageTarget r.Os r.Arch with
              | .error _ => .error ⟨Code.InvalidArgument, "error loading manifest from list"⟩
              | .ok target_manifest =>
                match LoadManifestImplFromList cs imageTarget GOOS GOARCH with
                | .error _ => .error ⟨Code.InvalidArgument, "error loading manifest from list"⟩
                | .ok m_impl => .ok (target_manifest, m_impl)
            else (.ok (target_manifest, m_impl) : Except Status (ManifestImpl × ManifestImpl))) with
          | .error e => .error e
          | .ok (target_manifest, m_impl) =>
            -- Deserialize the image config
            match GetDescriptor (m_impl.D.raw "config") with
            | .error _ =>
              .error ⟨Code.InvalidArgument, "error getting image config descriptor"⟩
            | .ok imageConfigDesc =>
              -- Get the image configuration.
              match ReadBlob cs imageConfigDesc with
              | .error _ => .error ⟨Code.InvalidArgument, "error reading image config blob"⟩
              | .ok p => .ok ⟨target_manifest, p⟩

/-! ## Concurrent requests for one pair, statement by statement -/

/-- Where a request stands in `CalculateDeltaDiffs`. -/
inductive Pc where
  /-- Line 138: `mutex, exists := mutexes[patch_location]`. -/
  | lookup
  /-- Lines 139 to 142: make a mutex and put it in the map when none was found. -/
  | insert
  /-- Line 145: `mutexes[patch_location].Lock()`. -/
  | lock
  /-- Line 146: `os.Stat(patch_location)`. -/
  | stat
  /-- Line 148: `mutexes[patch_location].Unlock()`. -/
  | unlockHit
  /-- Lines 251 to 262: the differ subprocess. -/
  | differ
  /-- Lines 278 to 280: the compressor subprocess. -/
  | compress
  /-- Line 282: `mutex.Unlock()`. -/
  | unlockMiss
  /-- The streaming loop. -/
  | stream
  | done
  deriving DecidableEq, Repr

/-- A request in flight: its place, and its local variables `exists` and `mutex` (the mutex
object it holds a pointer to). -/
structure Task where
  pc : Pc
  found : Bool
  mutex : Option Nat
  deriving DecidableEq, Repr

/-- The state the requests share, for the one path they all ask for: the entry of the
`mutexes` map (which mutex object it points to), the mutex objects made so far with their lock
bits, whether the patch file is on disk, and how often the differ has been started. -/
structure Shared where
  entry : Option Nat
  locked : List Bool
  fileExists : Bool
  differRuns : Nat
  deriving DecidableEq, Repr

/-- The server with its requests in flight. -/
structure Sys where
  shared : Shared
  tasks : List Task
  deriving DecidableEq, Repr

/-- One statement of one request.  `none` when the request cannot move: it waits in `Lock`,
it is done, or it would unlock a mutex that is not locked. -/
def Task.step (sh : Shared) (t : Task) : Option (Shared × Task) :=
  match t.pc with
  | .lookup => some (sh, { t with pc := .insert, found := sh.entry.isSome, mutex := sh.entry })
  | .insert =>
    if t.found then some (sh, { t with pc := .lock })
    else
      some ({ sh with entry := some sh.locked.length, locked := sh.locked ++ [false] },
        { t with pc := .lock, mutex := some sh.locked.length })
  | .lock =>
    match sh.entry with
    | none => none
    | some m =>
      if sh.locked.getD m true then none
      else some ({ sh with locked := sh.locked.set m true }, { t with pc := .stat })
  | .stat => some (sh, { t with pc := if sh.fileExists then .unlockHit else .differ })
  | .unlockHit =>
    match sh.entry with
    | none => none
    | some m =>
      if sh.locked.getD m false then
        some ({ sh with locked := sh.locked.set m false }, { t with pc := .stream })
      else none
  | .differ => some ({ sh with differRuns := sh.differRuns + 1 }, { t with pc := .compress })
  | .compress => some ({ sh with fileExists := true }, { t with pc := .unlockMiss })
  | .unlockMiss =>
    match t.mutex with
    | none => none
    | some m =>
      if sh.locked.getD m false then
        some ({ sh with locked := sh.locked.set m false }, { t with pc := .stream })
      else none
  | .stream => some (sh, { t with pc := .done })
  | .done => none

/-- The request numbered `i` executes its next statement. -/
def Sys.step (s : Sys) (i : Nat) : Option Sys :=
  match s.tasks.get? i with
  | none => none
  | some t =>
    match t.step s.shared with
    | none => none
    | some (sh, t') => some ⟨sh, s.tasks.set i t'⟩

/-- Run a schedule: the numbers of the requests in the order in which they take a step. -/
def Sys.run : Sys → List Nat → Option Sys
  | s, [] => some s
  | s, i :: rest =>
    match s.step i with
    | none => none
    | some s' => Sys.run s' rest

/-- Two requests for the same pair arriving at a server that has neither a mutex nor a patch
file for it. -/
def twoRequests : Sys :=
  ⟨⟨none, [], false, 0⟩, [⟨.lookup, false, none⟩, ⟨.lookup, false, none⟩]⟩

/-! ## Vocabulary of the statements -/

/-- The config document `patchImageConfig` writes for the entries of the current one. -/
def patchedConfig (entries : RawMap) (type newLayer : String) : Bytes :=
  Bytes.json (marshalMap (some (RawMap.set entries "rootfs" (encodeRootFS ⟨type, [newLayer]⟩))))

/-- The descriptor `patchImageConfig` returns for the document it writes. -/
def patchedConfigDesc (H : Bytes → String) (old : Descriptor) (entries : RawMap)
    (type newLayer : String) : Descriptor :=
  { old with
    digest := H (patchedConfig entries type newLayer)
    size := ((patchedConfig entries type newLayer).len : Int) }

/-- The entries of the manifest map after both assignments of `ReplaceWithLayer`. -/
def rewrittenEntries (d : RawMap) (configDesc layer : Descriptor) : RawMap :=
  RawMap.set (RawMap.set d "config" (encodeDescriptor configDesc)) "layers"
    (Json.arr [encodeDescriptor layer])

/-- The descriptor of the re-serialized manifest. -/
def rewrittenDesc (H : Bytes → String) (old : Descriptor) (entries : RawMap) : Descriptor :=
  { old with
    digest := H (Bytes.json (marshalMap (some entries)))
    size := ((Bytes.json (marshalMap (some entries))).len : Int) }

/-- The map a JSON object decodes to on its own. -/
def objectMap (members : List (String × Json)) : RawMap :=
  members.foldl (fun m kv => RawMap.set m kv.1 kv.2.trim) []

/-- The platform annotation of a child of an index: the strings under `platform.os` and
`platform.architecture`. -/
def platformOf (child : Json) : Option (String × String) :=
  match child.trim with
  | .obj members =>
    match assoc (objectMap members) "platform" with
    | some (.obj platform) =>
      match assoc (objectMap platform) "os", assoc (objectMap platform) "architecture" with
      | some (.str o), some (.str a) => some (o, a)
      | _, _ => none
    | _ => none
  | _ => none

/-- A child is wanted when its `platform.os` is `os` and its `platform.architecture` is `arch`
up to letter case. -/
def wanted (os arch : String) (child : Json) : Bool :=
  match platformOf child with
  | some (o, a) => o == os && a.data.map Char.toLower == arch.data.map Char.toLower
  | none => false

/-! ## Worked example -/

/-- A stand-in for SHA-256 in the worked examples (byte length and character sum of the text);
the general statements hold for every digest function. -/
def exampleDigest (p : Bytes) : String :=
  match p with
  | .json j =>
    "sha256:" ++ toString j.render.utf8ByteSize ++ "." ++
      toString (j.render.data.foldl (fun a c => a + c.toNat) 0)
  | .other raw => "sha256:" ++ toString raw.length ++ "." ++ toString raw.sum

/-- The uncompressed digest the differ labelled the new layer with. -/
def exampleDiffID : String :=
  "sha256:0123456789abcdef0123456789abcdef0123456789abcdef0123456789abcdef"

/-- The descriptor of the new layer, as the diff service returns it. -/
def exampleLayer : Descriptor :=
  ⟨MediaTypeImageLayerGzip, "sha256:1a7e9", 4096⟩

/-- A content store holding the new layer blob with its uncompressed-digest label. -/
def exampleStore : Store :=
  ⟨[("sha256:1a7e9", ⟨.other [31, 139, 8], [(containerdUncompressed, exampleDiffID)]⟩)], []⟩

/-- An image config with two diff-IDs and a vendor member inside `rootfs`. -/
def exampleConfig : Json :=
  .obj [("architecture", .str "amd64"),
        ("os", .str "linux"),
        ("rootfs", .obj [("type", .str "layers"),
                         ("diff_ids", .arr [.str "sha256:d1", .str "sha256:d2"]),
                         ("vendor", .num "1")])]

/-- An OCI parent manifest with five layers and an `annotations` key. -/
def exampleManifest : ManifestImpl :=
  ⟨some [("schemaVersion", .num "2"),
         ("mediaType", .str MediaTypeImageManifest),
         ("config", .obj [("mediaType", .str "application/vnd.oci.image.config.v1+json"),
                          ("digest", .str "sha256:c0"), ("size", .num "100")]),
         ("layers", .arr [.obj [("digest", .str "sha256:b1"), ("size", .num "1")],
                          .obj [("digest", .str "sha256:b2"), ("size", .num "2")],
                          .obj [("digest", .str "sha256:b3"), ("size", .num "3")],
                          .obj [("digest", .str "sha256:b4"), ("size", .num "4")],
                          .obj [("digest", .str "sha256:b5"), ("size", .num "5")]]),
         ("annotations", .obj [("org.example.note", .str "kept")])],
   ⟨MediaTypeImageManifest, "sha256:e0", 600⟩⟩

/-- A child entry of an index for a platform. -/
def childEntry (digest os arch : String) : Json :=
  .obj [("mediaType", .str MediaTypeImageManifest), ("digest", .str digest), ("size", .num "7"),
        ("platform", .obj [("architecture", .str arch), ("os", .str os)])]

/-- An index listing a linux/amd64 and a linux/arm64 child. -/
def exampleIndex : Json :=
  .obj [("schemaVersion", .num "2"),
        ("manifests", .arr [childEntry "sha256:a64" "linux" "amd64",
                            childEntry "sha256:a32" "linux" "arm64"])]

/-- A store holding the index and both children. -/
def indexStore : Store :=
  ⟨[("sha256:1dx", ⟨.json exampleIndex, []⟩),
    ("sha256:a64", ⟨.json (.obj [("schemaVersion", .num "2"), ("layers", .arr [])]), []⟩),
    ("sha256:a32", ⟨.json (.obj [("schemaVersion", .num "2"), ("layers", .arr []),
      ("annotations", .obj [("arch", .str "arm64")])]), []⟩)], []⟩

/-- A store holding the index and the linux/amd64 child only, as after a pull for that
platform. -/
def pulledStore : Store :=
  ⟨[("sha256:1dx", ⟨.json exampleIndex, []⟩),
    ("sha256:a64", ⟨.json (.obj [("schemaVersion", .num "2"), ("layers", .arr [])]), []⟩)], []⟩

/-- The descriptor of the index. -/
def indexDesc : Descriptor :=
  ⟨MediaTypeDockerSchema2ManifestList, "sha256:1dx", 500⟩

/-- A store whose backend fails the ingest of the re-serialized example manifest. -/
def rejectingStore : Store :=
  ⟨exampleStore.blobs, ["sha256:330.28619"]⟩

/-- A content store holding the new layer blob without the uncompressed-digest label. -/
def unlabelledStore : Store :=
  ⟨[("sha256:1a7e9", ⟨.other [31, 139, 8], [("containerd.io/distribution.source", "x")]⟩)], []⟩

/-- A Docker schema 2 parent manifest. -/
def dockerManifest : ManifestImpl :=
  ⟨exampleManifest.D, ⟨MediaTypeDockerSchema2Manifest, "sha256:e1", 600⟩⟩

/-- A manifest list taken as the parent. -/
def listManifest : ManifestImpl :=
  ⟨exampleManifest.D, ⟨MediaTypeDockerSchema2ManifestList, "sha256:e2", 600⟩⟩

/-- An OCI parent manifest whose `annotations` value is written with white space after a colon
and around a string, and holds a URL with `&`, `<` and `>` in it and a text with the line
separator U+2028 and the paragraph separator U+2029. -/
def annotatedManifest : ManifestImpl :=
  ⟨some [("schemaVersion", .num "2"),
         ("config", .obj [("mediaType", .str "application/vnd.oci.image.config.v1+json"),
                          ("digest", .str "sha256:c0"), ("size", .num "100")]),
         ("layers", .arr [.obj [("digest", .str "sha256:b1"), ("size", .num "1")]]),
         ("annotations",
            .obj [("org.example.source",
                    .spaced [.space] (.str "https://example.org/?a=1&b=<2>") []),
                  ("org.example.note", .spaced [.lf, .space] (.str "kept") [.lf]),
                  ("org.example.text",
                    .str ("line" ++ String.singleton (Char.ofNat 0x2028) ++ "par" ++
                      String.singleton (Char.ofNat 0x2029)))])],
   ⟨MediaTypeImageManifest, "sha256:e3", 600⟩⟩

/-- An OCI parent manifest with neither a `config` nor a `layers` key. -/
def bareManifest : ManifestImpl :=
  ⟨some [("schemaVersion", .num "2")], ⟨MediaTypeImageManifest, "sha256:e4", 300⟩⟩

/-- An image config without a `rootfs` key. -/
def bareConfig : Json :=
  .obj [("architecture", .str "amd64"), ("os", .str "linux")]

/-- Member `k` of a document that is an object. -/
def memberOf (doc : Bytes) (k : String) : Option Json :=
  match doc with
  | .json (.obj members) => assoc members k
  | _ => none

/-- Member `k` of the `rootfs` object of a config document. -/
def rootfsMember (doc : Bytes) (k : String) : Option Json :=
  match doc with
  | .json (.obj members) =>
    match assoc members "rootfs" with
    | some (.obj rootfs) => assoc rootfs k
    | _ => none
  | _ => none

/-- A stand-in for `identity.ChainID` in the worked examples. -/
def exampleChainID (diffIDs : List String) : String :=
  diffIDs.foldl (fun acc d => acc ++ "/" ++ d) "chain"

/-- An unpacked image: its tip snapshot is committed. -/
def alpineImage : Image :=
  ⟨"docker.io/library/alpine:latest", some ["sha256:d1"], some 3000000⟩

/-- The base image of the worked example. -/
def alpineOld : Image :=
  ⟨"docker.io/library/alpine:3.15.10", some ["sha256:d0"], some 2900000⟩

/-- A snapshotter holding the committed snapshots of both unpacked images. -/
def unpackedSnapshots : Snapshotter :=
  ⟨[("chain/sha256:d0", ⟨Kind.KindCommitted, ""⟩), ("chain/sha256:d1", ⟨Kind.KindCommitted, ""⟩)]⟩

/-- A server with both images unpacked, no patch file and no mutex yet. -/
def freshWorld : World :=
  ⟨[], [], [(alpineOld.name, alpineOld), (alpineImage.name, alpineImage)], unpackedSnapshots⟩

/-- An environment in which the differ exits with an error. -/
def failingDiffer : Env :=
  { registry := fun _ => none
    tempMount := fun mounts => some ("/tmp/containerd-mount" ++ toString mounts.length)
    rsync := fun _ _ => none
    zstd := fun bytes => some bytes
    now := "2024-01-01T00:00:00Z"
    sendLimit := none
    ChainID := exampleChainID }


/-- The path of the compressed patch of a request, as the specification writes it. -/
def patchPath (r : CalcImageDiffsRequest) : String :=
  "/tmp/delta-patch-from-" ++ imageName r.Image1 ++ "-to-" ++ imageName r.Image2 ++ ".zst"

/-- The path of the raw patch of a request: the compressed path without `.zst`. -/
def rawPatchPath (r : CalcImageDiffsRequest) : String :=
  "/tmp/delta-patch-from-" ++ imageName r.Image1 ++ "-to-" ++ imageName r.Image2

/-- An environment in which the differ and the compressor succeed and every send succeeds. -/
def workingEnv : Env :=
  { registry := fun _ => none
    tempMount := fun mounts => some ("/tmp/containerd-mount" ++ toString mounts.length)
    rsync := fun _ _ => some [114, 115, 121, 110, 99]
    zstd := fun bytes => some (40 :: 181 :: 47 :: 253 :: bytes)
    now := "2024-01-01T00:00:00Z"
    sendLimit := none
    ChainID := exampleChainID }

/-- The bytes of a cached compressed patch. -/
def cachedPatch : List Nat :=
  [40, 181, 47, 253, 0, 88, 65, 0]

/-- The request of the worked example: from alpine 3.15.10 to alpine latest. -/
def alpineRequest : CalcImageDiffsRequest :=
  ⟨"docker.io/library/alpine:3.15.10", "docker.io/library/alpine:latest"⟩

/-- A server whose patch file for the worked example is already on disk. -/
def seededWorld : World :=
  { freshWorld with
    files := [("/tmp/delta-patch-from-alpine:3.15.10-to-alpine:latest.zst", cachedPatch)] }

/-- A server holding a patch file under the path of an empty base name. -/
def emptyNameSeeded : World :=
  { freshWorld with files := [("/tmp/delta-patch-from--to-alpine:latest.zst", cachedPatch)] }

/-- The image config of a platform. -/
def platformConfig (arch : String) : Json :=
  .obj [("architecture", .str arch), ("os", .str "linux"),
        ("rootfs", .obj [("type", .str "layers"), ("diff_ids", .arr [])])]

/-- The manifest of a platform, pointing at its config. -/
def platformManifest (configDigest : String) : Json :=
  .obj [("schemaVersion", .num "2"),
        ("config", .obj [("mediaType", .str "application/vnd.docker.container.image.v1+json"),
                         ("digest", .str configDigest), ("size", .num "90")]),
        ("layers", .arr [])]

/-- A store holding the index, the manifests of both platforms and their configs. -/
def platformStore : Store :=
  ⟨[("sha256:1dx", ⟨.json exampleIndex, []⟩),
    ("sha256:a64", ⟨.json (platformManifest "sha256:c64"), []⟩),
    ("sha256:a32", ⟨.json (platformManifest "sha256:c32"), []⟩),
    ("sha256:c64", ⟨.json (platformConfig "amd64"), []⟩),
    ("sha256:c32", ⟨.json (platformConfig "arm64"), []⟩)], []⟩

/-- The images of the server: the reference of the worked example resolves to the index. -/
def exampleTarget (ref : String) : Option Descriptor :=
  if ref = "docker.io/library/alpine:latest" then some indexDesc else none

/-- A local image list with a mirror copy of an older version. -/
def mirrorList : List String :=
  ["registry.example/mirror/docker.io/library/alpine:3.14"]

/-! ## Equality of JSON values is decidable -/

mutual
theorem Json.beq_iff : ∀ a b : Json, Json.beq a b = true ↔ a = b
  | .null, b => by cases b <;> simp [Json.beq]
  | .bool a, b => by cases b <;> simp [Json.beq]
  | .num a, b => by cases b <;> simp [Json.beq]
  | .str a, b => by cases b <;> simp [Json.beq]
  | .arr a, b => by
      cases b <;> simp [Json.beq]
      exact Json.beqItems_iff a _
  | .obj a, b => by
      cases b <;> simp [Json.beq]
      exact Json.beqMembers_iff a _
  | .spaced a x b, c => by
      cases c with
      | spaced a' y b' => simp [Json.beq, Json.beq_iff x y, and_assoc]
      | _ => simp [Json.beq]
theorem Json.beqItems_iff : ∀ a b : List Json, Json.beqItems a b = true ↔ a = b
  | [], b => by cases b <;> simp [Json.beqItems]
  | x :: xs, b => by
      cases b with
      | nil => simp [Json.beqItems]
      | cons y ys => simp [Json.beqItems, Json.beq_iff x y, Json.beqItems_iff xs ys]
theorem Json.beqMembers_iff :
    ∀ a b : List (String × Json), Json.beqMembers a b = true ↔ a = b
  | [], b => by cases b <;> simp [Json.beqMembers]
  | (k, x) :: xs, b => by
      cases b with
      | nil => simp [Json.beqMembers]
      | cons y ys =>
        obtain ⟨l, y⟩ := y
        simp [Json.beqMembers, Json.beq_iff x y, Json.beqMembers_iff xs ys, and_assoc]
end

instance : DecidableEq Json := fun a b => decidable_of_iff _ (Json.beq_iff a b)

/-! ## Lookup lemmas -/

theorem assoc_set_self (m : RawMap) (k : String) (v : Json) :
    assoc (RawMap.set m k v) k = some v := by
  induction m with
  | nil => simp [RawMap.set, assoc]
  | cons kv rest ih =>
    obtain ⟨k', v'⟩ := kv
    by_cases h : k' = k
    · simp [RawMap.set, assoc, h]
    · simp [RawMap.set, assoc, h, ih]

theorem assoc_set_other (m : RawMap) (k k' : String) (v : Json) (h : k' ≠ k) :
    assoc (RawMap.set m k v) k' = assoc m k' := by
  induction m with
  | nil => simp [RawMap.set, assoc, Ne.symm h]
  | cons kv rest ih =>
    obtain ⟨k0, v0⟩ := kv
    by_cases h0 : k0 = k
    · subst h0
      simp [RawMap.set, assoc, Ne.symm h]
    · by_cases h1 : k0 = k'
      · subst h1
        simp [RawMap.set, assoc, h0]
      · simp [RawMap.set, assoc, h0, h1, ih]

theorem assoc_insertSorted (m : RawMap) (k k' : String) (v : Json) :
    assoc (insertSorted k v m) k' = if k = k' then some v else assoc m k' := by
  induction m with
  | nil => simp [insertSorted, assoc]
  | cons kv rest ih =>
    obtain ⟨k0, v0⟩ := kv
    unfold insertSorted
    by_cases h1 : strLt k.data k0.data = true
    · simp [h1, assoc]
    · by_cases h2 : k = k0
      · subst h2
        by_cases h3 : k = k'
        · subst h3
          simp [h1, assoc]
        · simp [h1, assoc, h3]
      · by_cases h3 : k = k'
        · subst h3
          simp [h1, h2, assoc, ih, Ne.symm h2]
        · simp [h1, h2, assoc, ih, h3]

theorem assoc_sortKeys (m : RawMap) (k : String) : assoc (sortKeys m) k = assoc m k := by
  induction m with
  | nil => rfl
  | cons kv rest ih =>
    obtain ⟨k0, v0⟩ := kv
    have : sortKeys ((k0, v0) :: rest) = insertSorted k0 v0 (sortKeys rest) := rfl
    rw [this, assoc_insertSorted, ih]
    simp [assoc]

/-! ## Names as the encoder writes them -/

theorem lookup_mem {α β : Type} [BEq α] [LawfulBEq α] (l : List (α × β)) (a : α) (b : β)
    (h : l.lookup a = some b) : (a, b) ∈ l := by
  induction l with
  | nil => simp [List.lookup] at h
  | cons x xs ih =>
    obtain ⟨k, v⟩ := x
    by_cases hk : a = k
    · subst hk
      simp [List.lookup] at h
      subst h
      exact List.mem_cons_self _ _
    · have : (a == k) = false := by simpa using hk
      simp only [List.lookup, this] at h
      exact List.mem_cons_of_mem _ (ih h)

theorem stringEscapes_prefix_free :
    ∀ e1 ∈ stringEscapes, ∀ e2 ∈ stringEscapes,
      (e1.2.isPrefixOf e2.2 = true ∨ e2.2.isPrefixOf e1.2 = true) → e1.1 = e2.1 := by
  decide

theorem stringEscapes_backslash :
    ∀ e ∈ stringEscapes, ∃ t, e.2 = Char.ofNat 92 :: t := by
  intro e he
  simp only [stringEscapes, htmlEscapes, uEscape, List.mem_cons, List.mem_singleton,
    List.not_mem_nil, or_false] at he
  rcases he with h | h | h | h | h | h | h <;> subst h <;> exact ⟨_, rfl⟩

theorem quoteChar_ne_nil (c : Char) : quoteChar c ≠ [] := by
  unfold quoteChar
  cases hb : stringEscapes.lookup c with
  | none => simp
  | some t =>
    obtain ⟨t', ht'⟩ := stringEscapes_backslash _ (lookup_mem _ _ _ hb)
    simp only at ht'
    simp [ht']

theorem quoteChar_head (a b : Char) (r1 r2 : List Char)
    (h : quoteChar a ++ r1 = quoteChar b ++ r2) : a = b ∧ r1 = r2 := by
  unfold quoteChar at h
  have hbs : stringEscapes.lookup (Char.ofNat 92) ≠ none := by decide
  cases ha : stringEscapes.lookup a with
  | none =>
    cases hb : stringEscapes.lookup b with
    | none =>
      simp only [ha, hb, Option.getD_none, List.singleton_append, List.cons.injEq] at h
      exact h
    | some t =>
      obtain ⟨t', ht'⟩ := stringEscapes_backslash _ (lookup_mem _ _ _ hb)
      simp only at ht'
      subst ht'
      simp only [ha, hb, Option.getD_none, Option.getD_some, List.singleton_append,
        List.cons_append, List.cons.injEq] at h
      rw [h.1] at ha
      exact absurd ha hbs
  | some t =>
    cases hb : stringEscapes.lookup b with
    | none =>
      obtain ⟨t', ht'⟩ := stringEscapes_backslash _ (lookup_mem _ _ _ ha)
      simp only at ht'
      subst ht'
      simp only [ha, hb, Option.getD_none, Option.getD_some, List.singleton_append,
        List.cons_append, List.cons.injEq] at h
      rw [← h.1] at hb
      exact absurd hb hbs
    | some u =>
      simp only [ha, hb, Option.getD_some] at h
      have ht : t <+: t ++ r1 := List.prefix_append _ _
      have hu : u <+: t ++ r1 := by
        rw [h]
        exact List.prefix_append _ _
      have hpre : t <+: u ∨ u <+: t := List.prefix_or_prefix_of_prefix ht hu
      have hab : a = b := by
        apply stringEscapes_prefix_free _ (lookup_mem _ _ _ ha) _ (lookup_mem _ _ _ hb)
        rcases hpre with hp | hp
        · exact Or.inl (List.isPrefixOf_iff_prefix.2 hp)
        · exact Or.inr (List.isPrefixOf_iff_prefix.2 hp)
      subst hab
      rw [ha] at hb
      cases hb
      exact ⟨rfl, List.append_cancel_left h⟩

theorem flatMap_quoteChar_inj : ∀ l1 l2 : List Char,
    l1.flatMap quoteChar = l2.flatMap quoteChar → l1 = l2
  | [], [] => fun _ => rfl
  | [], b :: bs => fun h => by
    exfalso
    simp only [List.flatMap_nil, List.flatMap_cons] at h
    have h' := congrArg List.length h
    simp only [List.length_nil, List.length_append] at h'
    have : (quoteChar b).length ≠ 0 := by simpa using quoteChar_ne_nil b
    omega
  | a :: as, [] => fun h => by
    exfalso
    simp only [List.flatMap_nil, List.flatMap_cons] at h
    have h' := congrArg List.length h
    simp only [List.length_nil, List.length_append] at h'
    have : (quoteChar a).length ≠ 0 := by simpa using quoteChar_ne_nil a
    omega
  | a :: as, b :: bs => fun h => by
    simp only [List.flatMap_cons] at h
    obtain ⟨hab, hr⟩ := quoteChar_head a b _ _ h
    rw [hab, flatMap_quoteChar_inj as bs hr]

theorem quoteName_inj (a b : String) (h : quoteName a = quoteName b) : a = b := by
  unfold quoteName at h
  have h' := congrArg String.data h
  simp only at h'
  exact String.ext (flatMap_quoteChar_inj _ _ h')

theorem assoc_map_entries {α β : Type} (f : String → String) (g : α → β)
    (hf : ∀ a b, f a = f b → a = b) (l : List (String × α)) (k : String) :
    assoc (l.map (fun kv => (f kv.1, g kv.2))) (f k) = (assoc l k).map g := by
  induction l with
  | nil => rfl
  | cons kv rest ih =>
    obtain ⟨k0, v0⟩ := kv
    simp only [List.map_cons, assoc]
    by_cases h : k0 = k
    · simp [h]
    · have h' : ¬ f k0 = f k := fun hh => h (hf _ _ hh)
      simp [h, h', ih]

theorem assoc_marshalled (m : RawMap) (k : String) :
    assoc ((sortKeys m).map (fun kv => (quoteName kv.1, kv.2.compact))) (quoteName k) =
      (assoc m k).map Json.compact := by
  rw [assoc_map_entries quoteName Json.compact quoteName_inj, assoc_sortKeys]

theorem assoc_marshalled_plain (m : RawMap) (k : String) (hk : quoteName k = k) :
    assoc ((sortKeys m).map (fun kv => (quoteName kv.1, kv.2.compact))) k =
      (assoc m k).map Json.compact := by
  have h := assoc_marshalled m k
  rw [hk] at h
  exact h

theorem names_marshalled (m : RawMap) :
    ∀ kv ∈ (sortKeys m).map (fun kv => (quoteName kv.1, kv.2.compact)),
      ∃ k, kv.1 = quoteName k := by
  intro kv hkv
  obtain ⟨kv0, _, rfl⟩ := List.mem_map.1 hkv
  exact ⟨kv0.1, rfl⟩

/-! ## White space and escapes -/

theorem Json.trim_trim : ∀ j : Json, j.trim.trim = j.trim
  | .null => rfl
  | .bool _ => rfl
  | .num _ => rfl
  | .str _ => rfl
  | .arr _ => rfl
  | .obj _ => rfl
  | .spaced _ j _ => by
    simp only [Json.trim]
    exact Json.trim_trim j

theorem flatMap_escapeChar_plain (l : List Char) (h : ∀ c ∈ l, escapeChar c = [c]) :
    l.flatMap escapeChar = l := by
  induction l with
  | nil => rfl
  | cons c cs ih =>
    rw [List.flatMap_cons, h c (List.mem_cons_self _ _),
      ih (fun c' hc' => h c' (List.mem_cons_of_mem _ hc'))]
    rfl

theorem escapeText_plain (s : String) (h : ∀ c ∈ s.data, escapeChar c = [c]) :
    escapeText s = s := by
  unfold escapeText
  rw [flatMap_escapeChar_plain s.data h]

theorem escapeChar_lowerHex (c : Char) (h : isLowerHex c = true) : escapeChar c = [c] := by
  unfold isLowerHex at h
  unfold escapeChar
  have h1 : c ≠ '<' := by rintro rfl; simp at h
  have h2 : c ≠ '>' := by rintro rfl; simp at h
  have h3 : c ≠ '&' := by rintro rfl; simp at h
  have h4 : c ≠ Char.ofNat 0x2028 := by rintro rfl; revert h; decide
  have h5 : c ≠ Char.ofNat 0x2029 := by rintro rfl; revert h; decide
  have e1 : (c == '<') = false := by simpa using h1
  have e2 : (c == '>') = false := by simpa using h2
  have e3 : (c == '&') = false := by simpa using h3
  have e4 : (c == Char.ofNat 0x2028) = false := by simpa using h4
  have e5 : (c == Char.ofNat 0x2029) = false := by simpa using h5
  simp only [htmlEscapes, List.lookup, e1, e2, e3, e4, e5, Option.getD_none]

theorem algorithm_plain (alg : List Char) (n : Nat)
    (h : algorithmSize (String.mk alg) = some n) : ∀ c ∈ alg, escapeChar c = [c] := by
  unfold algorithmSize at h
  have key : ∀ t : String, String.mk alg = t → (∀ c ∈ t.data, escapeChar c = [c]) →
      ∀ c ∈ alg, escapeChar c = [c] := by
    intro t ht hall c hc
    have : alg = t.data := by rw [← ht]
    rw [this] at hc
    exact hall c hc
  split_ifs at h with h1 h2 h3
  · exact key _ h1 (by decide)
  · exact key _ h2 (by decide)
  · exact key _ h3 (by decide)

theorem digestParse_plain (s d : String) (h : digestParse s = .ok d) : escapeText d = d := by
  unfold digestParse at h
  simp only at h
  cases hdrop : List.dropWhile (fun c => c != ':') s.data with
  | nil => simp [hdrop] at h
  | cons c enc =>
    simp only [hdrop] at h
    by_cases h1 : List.takeWhile (fun c => c != ':') s.data = [] ∨ enc = []
    · rw [if_pos h1] at h
      cases h
    · rw [if_neg h1] at h
      cases hn : algorithmSize (String.mk (List.takeWhile (fun c => c != ':') s.data)) with
      | none => simp [hn] at h
      | some n =>
        simp only [hn] at h
        by_cases h2 : enc.length ≠ 2 * n
        · rw [if_pos h2] at h
          cases h
        · rw [if_neg h2] at h
          by_cases h3 : enc.all isLowerHex = true
          · rw [if_pos h3] at h
            cases h
            apply escapeText_plain
            intro ch hch
            rw [← List.takeWhile_append_dropWhile (fun c => c != ':') s.data, hdrop] at hch
            rcases List.mem_append.1 hch with hm | hm
            · exact algorithm_plain _ n hn ch hm
            · rcases List.mem_cons.1 hm with hm | hm
              · have hc : c = ':' := by
                  have := List.head_dropWhile_not (fun c => c != ':') s.data
                    (by rw [hdrop]; simp)
                  simp only [hdrop, List.head_cons] at this
                  simpa using this
                subst hm
                subst hc
                decide
              · exact escapeChar_lowerHex ch (List.all_eq_true.1 h3 ch hm)
          · rw [if_neg h3] at h
            cases h

/-! ## What a successful call went through -/

theorem patchImageConfig_ok_inv (H : Bytes → String) (cs : Store) (ic : Descriptor) (nl : String)
    (cfg : Option Bytes) (h : (patchImageConfig H cs ic nl cfg).ret = .ok) :
    ∃ (p : Bytes) (entries : RawMap) (rootFS : RootFS) (cs' : Store),
      currentConfig cs ic cfg = .ok p ∧
      unmarshalBytes p = .ok (some entries) ∧
      decodeRootFS (GoMap.raw (some entries) "rootfs") = .ok rootFS ∧
      WriteBlob H cs (patchedConfig entries rootFS.type nl)
        (patchedConfigDesc H ic entries rootFS.type nl) [] = .ok cs' ∧
      patchImageConfig H cs ic nl cfg =
        ⟨.ok, patchedConfigDesc H ic entries rootFS.type nl, cs',
          [⟨patchedConfig entries rootFS.type nl, patchedConfigDesc H ic entries rootFS.type nl, []⟩]⟩ := by
  unfold patchImageConfig at h ⊢
  cases hp : currentConfig cs ic cfg with
  | error e => simp [hp] at h
  | ok p =>
    cases hm : unmarshalBytes p with
    | error e => simp [hp, hm] at h
    | ok m =>
      cases hr : decodeRootFS (GoMap.raw m "rootfs") with
      | error e => simp [hp, hm, hr] at h
      | ok rootFS =>
        cases m with
        | none => simp [hp, hm, hr] at h
        | some entries =>
          simp only [hp, hm, hr, List.nil_append] at h ⊢
          cases hw : WriteBlob H cs (patchedConfig entries rootFS.type nl)
              (patchedConfigDesc H ic entries rootFS.type nl) [] with
          | error e =>
            simp only [patchedConfig, patchedConfigDesc] at hw
            simp [hw] at h
          | ok cs' =>
            simp only [patchedConfig, patchedConfigDesc] at hw ⊢
            exact ⟨p, entries, rootFS, cs', rfl, hm, hr, hw, by simp [hw]⟩

theorem ReplaceWithLayer_ok_inv (H : Bytes → String) (cs : Store) (m : ManifestImpl)
    (layer : Descriptor) (cfg : Option Bytes)
    (h : (ReplaceWithLayer H cs m layer cfg).ret = .ok) :
    ∃ (mt : String) (labels : List (String × String)) (diffIDStr diffID : String)
      (cfgDesc0 cfgDesc : Descriptor) (cs1 cs2 : Store) (ws : List WriteReq) (d : RawMap),
      layerMediaTypeFor m.Desc.mediaType = some mt ∧
      cs.Info layer.digest = .ok labels ∧
      assoc labels containerdUncompressed = some diffIDStr ∧
      digestParse diffIDStr = .ok diffID ∧
      GetDescriptor (m.D.raw "config") = .ok cfgDesc0 ∧
      patchImageConfig H cs cfgDesc0 diffID cfg = ⟨.ok, cfgDesc, cs1, ws⟩ ∧
      m.D = some d ∧
      WriteBlob H cs1
        (Bytes.json (marshalMap (some (rewrittenEntries d cfgDesc { layer with mediaType := mt }))))
        (rewrittenDesc H m.Desc (rewrittenEntries d cfgDesc { layer with mediaType := mt }))
        (gcLabels cfgDesc.digest [{ layer with mediaType := mt }]) = .ok cs2 ∧
      ReplaceWithLayer H cs m layer cfg =
        ⟨.ok, ⟨some (rewrittenEntries d cfgDesc { layer with mediaType := mt }),
                rewrittenDesc H m.Desc (rewrittenEntries d cfgDesc { layer with mediaType := mt })⟩,
          cs2,
          ws ++ [⟨Bytes.json (marshalMap (some (rewrittenEntries d cfgDesc { layer with mediaType := mt }))),
                  rewrittenDesc H m.Desc (rewrittenEntries d cfgDesc { layer with mediaType := mt }),
                  gcLabels cfgDesc.digest [{ layer with mediaType := mt }]⟩]⟩ := by
  obtain ⟨D, Desc⟩ := m
  unfold ReplaceWithLayer at h ⊢
  simp only at h ⊢
  cases hmt : layerMediaTypeFor Desc.mediaType with
  | none => simp [hmt] at h
  | some mt =>
    cases hi : cs.Info layer.digest with
    | error e => simp [hmt, hi] at h
    | ok labels =>
      cases hl : assoc labels containerdUncompressed with
      | none => simp [hmt, hi, hl] at h
      | some diffIDStr =>
        cases hd : digestParse diffIDStr with
        | error e => simp [hmt, hi, hl, hd] at h
        | ok diffID =>
          cases hg : GetDescriptor (GoMap.raw D "config") with
          | error e => simp [hmt, hi, hl, hd, hg] at h
          | ok cfgDesc0 =>
            cases hp : patchImageConfig H cs cfgDesc0 diffID cfg with
            | mk ret cfgDesc cs1 ws =>
              cases ret with
              | error e => simp [hmt, hi, hl, hd, hg, hp] at h
              | panic => simp [hmt, hi, hl, hd, hg, hp] at h
              | ok =>
                cases D with
                | none => simp [hmt, hi, hl, hd, hg, hp] at h
                | some d =>
                  simp only [hmt, hi, hl, hd, hg, hp, List.nil_append, List.map] at h ⊢
                  cases hly : decodeLayers
                      (GoMap.raw (some (RawMap.set d "config" (encodeDescriptor cfgDesc))) "layers") with
                  | error e => simp [hly] at h
                  | ok ls =>
                    simp only [hly] at h ⊢
                    cases hw : WriteBlob H cs1
                        (Bytes.json (marshalMap (some (rewrittenEntries d cfgDesc { layer with mediaType := mt }))))
                        (rewrittenDesc H Desc (rewrittenEntries d cfgDesc { layer with mediaType := mt }))
                        (gcLabels cfgDesc.digest [{ layer with mediaType := mt }]) with
                    | error e =>
                      simp only [rewrittenEntries, rewrittenDesc] at hw
                      simp [hw] at h
                    | ok cs2 =>
                      simp only [rewrittenEntries, rewrittenDesc] at hw ⊢
                      exact ⟨mt, labels, diffIDStr, diffID, cfgDesc0, cfgDesc, cs1, cs2, ws, d,
                        rfl, rfl, hl, hd, rfl, hp, rfl, hw, by simp [hw]⟩

theorem layerMediaTypeFor_some (parent mt : String) (h : layerMediaTypeFor parent = some mt) :
    (parent = MediaTypeDockerSchema2Manifest ∧ mt = MediaTypeDockerSchema2LayerGzip) ∨
    (parent = MediaTypeImageManifest ∧ mt = MediaTypeImageLayerGzip) := by
  unfold layerMediaTypeFor at h
  split_ifs at h with h1 h2
  · left; exact ⟨h1, by simpa using h.symm⟩
  · right; exact ⟨h2, by simpa using h.symm⟩

/-! ## Manifest mutator: the rewrite -/

/-- C1: when `ReplaceWithLayer` succeeds (which it only does on an OCI or Docker schema 2
parent) for a layer whose blob carries the parseable uncompressed-digest label `diffID`, the
manifest's `layers` is a list of exactly one element, the given layer (same digest and size),
and the config document it wrote, whose digest the manifest's `config` now holds, has
`rootfs.diff_ids` equal to `[diffID]`. -/
theorem replaceWithLayer_layers_and_diff_ids (H : Bytes → String) (cs : Store)
    (m : ManifestImpl) (layer : Descriptor) (cfg : Option Bytes)
    (labels : List (String × String)) (diffIDStr diffID : String)
    (hinfo : cs.Info layer.digest = .ok labels)
    (hlabel : assoc labels containerdUncompressed = some diffIDStr)
    (hparse : digestParse diffIDStr = .ok diffID)
    (hok : (ReplaceWithLayer H cs m layer cfg).ret = .ok) :
    (∃ mt : String, (ReplaceWithLayer H cs m layer cfg).m.D.get "layers" =
        some (Json.arr [Json.obj [("mediaType", .str mt), ("digest", .str layer.digest),
          ("size", .num (toString layer.size))]])) ∧
    (∃ (w : WriteReq) (entries : RawMap) (type : String),
        w ∈ (ReplaceWithLayer H cs m layer cfg).writes ∧
        w.data = Bytes.json (Json.obj entries) ∧
        w.desc.digest = H w.data ∧
        (ReplaceWithLayer H cs m layer cfg).m.D.get "config" = some (encodeDescriptor w.desc) ∧
        assoc entries "rootfs" =
          some (Json.obj [("type", .str type), ("diff_ids", .arr [.str diffID])])) := by
  obtain ⟨mt, labels', diffIDStr', diffID', cfgDesc0, cfgDesc, cs1, cs2, ws, d,
    _, hi, hl, hd, _, hp, _, _, heq⟩ := ReplaceWithLayer_ok_inv H cs m layer cfg hok
  have hpok : (patchImageConfig H cs cfgDesc0 diffID' cfg).ret = .ok := by rw [hp]
  obtain ⟨p, entries, rootFS, cs', _, _, _, _, hpe⟩ :=
    patchImageConfig_ok_inv H cs cfgDesc0 diffID' cfg hpok
  rw [hinfo] at hi
  cases hi
  rw [hlabel] at hl
  cases hl
  rw [hparse] at hd
  cases hd
  rw [hpe] at hp
  cases hp
  rw [heq]
  refine ⟨⟨mt, ?_⟩, ⟨patchedConfig entries rootFS.type diffID,
    patchedConfigDesc H cfgDesc0 entries rootFS.type diffID, []⟩, _, escapeText rootFS.type,
    ?_, rfl, rfl, ?_, ?_⟩
  · simp [GoMap.get, rewrittenEntries, assoc_set_self, encodeDescriptor]
  · simp
  · simp only [GoMap.get, rewrittenEntries]
    rw [assoc_set_other _ _ _ _ (by decide), assoc_set_self]
  · rw [assoc_marshalled_plain _ _ (by decide), assoc_set_self]
    have h1 : escapeText "type" = "type" := by decide
    have h2 : escapeText "diff_ids" = "diff_ids" := by decide
    simp [encodeRootFS, Json.compact, Json.compactItems, Json.compactMembers, h1, h2,
      digestParse_plain _ _ hparse]

set_option maxRecDepth 100000 in
theorem replaceWithLayer_layers_and_diff_ids_witness :
    (exampleStore.Info exampleLayer.digest = .ok [(containerdUncompressed, exampleDiffID)] ∧
      digestParse exampleDiffID = .ok exampleDiffID ∧
      (ReplaceWithLayer exampleDigest exampleStore exampleManifest exampleLayer
        (some (.json exampleConfig))).ret = .ok) ∧
    ((∃ mt : String,
        (ReplaceWithLayer exampleDigest exampleStore exampleManifest exampleLayer
          (some (.json exampleConfig))).m.D.get "layers" =
        some (Json.arr [Json.obj [("mediaType", .str mt), ("digest", .str exampleLayer.digest),
          ("size", .num (toString exampleLayer.size))]])) ∧
     (∃ (w : WriteReq) (entries : RawMap) (type : String),
        w ∈ (ReplaceWithLayer exampleDigest exampleStore exampleManifest exampleLayer
          (some (.json exampleConfig))).writes ∧
        w.data = Bytes.json (Json.obj entries) ∧
        w.desc.digest = exampleDigest w.data ∧
        (ReplaceWithLayer exampleDigest exampleStore exampleManifest exampleLayer
          (some (.json exampleConfig))).m.D.get "config" = some (encodeDescriptor w.desc) ∧
        assoc entries "rootfs" =
          some (Json.obj [("type", .str type), ("diff_ids", .arr [.str exampleDiffID])]))) :=
  ⟨⟨rfl, rfl, rfl⟩,
   replaceWithLayer_layers_and_diff_ids exampleDigest exampleStore exampleManifest exampleLayer
     (some (.json exampleConfig)) [(containerdUncompressed, exampleDiffID)] exampleDiffID
     exampleDiffID rfl rfl rfl rfl⟩

/-- C2: for a layer whose blob has no `containerd.io/uncompressed` label, `ReplaceWithLayer`
returns an error (the missing-diffID one, unless the parent media type was already refused),
and it does so before any write: no `WriteBlob` call is made, the content store is the same
after the call as before it, and so is the receiver. -/
theorem replaceWithLayer_missing_label (H : Bytes → String) (cs : Store) (m : ManifestImpl)
    (layer : Descriptor) (cfg : Option Bytes) (labels : List (String × String))
    (hinfo : cs.Info layer.digest = .ok labels)
    (hlabel : assoc labels containerdUncompressed = none) :
    ((ReplaceWithLayer H cs m layer cfg).ret = .error Err.missingDiffID ∨
      (ReplaceWithLayer H cs m layer cfg).ret = .error (Err.unknownParentType m.Desc.mediaType)) ∧
    (ReplaceWithLayer H cs m layer cfg).writes = [] ∧
    (ReplaceWithLayer H cs m layer cfg).cs = cs ∧
    (ReplaceWithLayer H cs m layer cfg).m = m := by
  unfold ReplaceWithLayer
  cases hmt : layerMediaTypeFor m.Desc.mediaType with
  | none => simp
  | some mt => simp [hinfo, hlabel]

theorem replaceWithLayer_missing_label_witness :
    (unlabelledStore.Info exampleLayer.digest = .ok [("containerd.io/distribution.source", "x")] ∧
      assoc [("containerd.io/distribution.source", "x")] containerdUncompressed = none) ∧
    (((ReplaceWithLayer exampleDigest unlabelledStore exampleManifest exampleLayer
          (some (.json exampleConfig))).ret = .error Err.missingDiffID ∨
      (ReplaceWithLayer exampleDigest unlabelledStore exampleManifest exampleLayer
          (some (.json exampleConfig))).ret =
        .error (Err.unknownParentType exampleManifest.Desc.mediaType)) ∧
     (ReplaceWithLayer exampleDigest unlabelledStore exampleManifest exampleLayer
        (some (.json exampleConfig))).writes = [] ∧
     (ReplaceWithLayer exampleDigest unlabelledStore exampleManifest exampleLayer
        (some (.json exampleConfig))).cs = unlabelledStore ∧
     (ReplaceWithLayer exampleDigest unlabelledStore exampleManifest exampleLayer
        (some (.json exampleConfig))).m = exampleManifest) :=
  ⟨⟨rfl, rfl⟩,
   replaceWithLayer_missing_label exampleDigest unlabelledStore exampleManifest exampleLayer
     (some (.json exampleConfig)) [("containerd.io/distribution.source", "x")] rfl rfl⟩

/-- C5: after a successful `ReplaceWithLayer` the descriptor keeps the parent's media type
(OCI stays OCI, Docker stays Docker); its digest and size are replaced by the digest and the
byte length of the re-serialized manifest, which is the document handed to `WriteBlob` under
that descriptor. -/
theorem replaceWithLayer_descriptor (H : Bytes → String) (cs : Store) (m : ManifestImpl)
    (layer : Descriptor) (cfg : Option Bytes)
    (hok : (ReplaceWithLayer H cs m layer cfg).ret = .ok) :
    (m.Desc.mediaType = MediaTypeImageManifest ∨
      m.Desc.mediaType = MediaTypeDockerSchema2Manifest) ∧
    (ReplaceWithLayer H cs m layer cfg).m.Desc =
      { mediaType := m.Desc.mediaType
        digest := H (Bytes.json (marshalMap (ReplaceWithLayer H cs m layer cfg).m.D))
        size := ((Bytes.json (marshalMap (ReplaceWithLayer H cs m layer cfg).m.D)).len : Int) } ∧
    (∃ w ∈ (ReplaceWithLayer H cs m layer cfg).writes,
      w.data = Bytes.json (marshalMap (ReplaceWithLayer H cs m layer cfg).m.D) ∧
      w.desc = (ReplaceWithLayer H cs m layer cfg).m.Desc) := by
  obtain ⟨mt, labels, diffIDStr, diffID, cfgDesc0, cfgDesc, cs1, cs2, ws, d,
    hmt, _, _, _, _, _, _, _, heq⟩ := ReplaceWithLayer_ok_inv H cs m layer cfg hok
  rw [heq]
  refine ⟨?_, rfl, ?_⟩
  · rcases layerMediaTypeFor_some _ _ hmt with h | h
    · exact Or.inr h.1
    · exact Or.inl h.1
  · exact ⟨_, List.mem_append_right _ (List.mem_singleton_self _), rfl, rfl⟩

set_option maxRecDepth 100000 in
theorem replaceWithLayer_descriptor_witness :
    (ReplaceWithLayer exampleDigest exampleStore exampleManifest exampleLayer
        (some (.json exampleConfig))).ret = .ok ∧
    (ReplaceWithLayer exampleDigest exampleStore exampleManifest exampleLayer
        (some (.json exampleConfig))).m.Desc =
      ⟨MediaTypeImageManifest, "sha256:330.28619", 330⟩ ∧
    ((exampleManifest.Desc.mediaType = MediaTypeImageManifest ∨
        exampleManifest.Desc.mediaType = MediaTypeDockerSchema2Manifest) ∧
      (ReplaceWithLayer exampleDigest exampleStore exampleManifest exampleLayer
          (some (.json exampleConfig))).m.Desc =
        { mediaType := exampleManifest.Desc.mediaType
          digest := exampleDigest (Bytes.json (marshalMap
            (ReplaceWithLayer exampleDigest exampleStore exampleManifest exampleLayer
              (some (.json exampleConfig))).m.D))
          size := ((Bytes.json (marshalMap
            (ReplaceWithLayer exampleDigest exampleStore exampleManifest exampleLayer
              (some (.json exampleConfig))).m.D)).len : Int) } ∧
      (∃ w ∈ (ReplaceWithLayer exampleDigest exampleStore exampleManifest exampleLayer
            (some (.json exampleConfig))).writes,
        w.data = Bytes.json (marshalMap
          (ReplaceWithLayer exampleDigest exampleStore exampleManifest exampleLayer
            (some (.json exampleConfig))).m.D) ∧
        w.desc = (ReplaceWithLayer exampleDigest exampleStore exampleManifest exampleLayer
          (some (.json exampleConfig))).m.Desc)) :=
  ⟨rfl, rfl,
   replaceWithLayer_descriptor exampleDigest exampleStore exampleManifest exampleLayer
     (some (.json exampleConfig)) rfl⟩

/-- C6: the layer stored in the manifest gets its media type from the parent's family, whatever
the incoming descriptor had: the Docker gzip layer type under a Docker schema 2 parent, the OCI
gzip layer type under an OCI parent; under any other parent media type the call fails with
the unknown-parent error, makes no `WriteBlob` call and leaves the content store as it was. -/
theorem replaceWithLayer_layer_media_type (H : Bytes → String) (cs : Store) (m : ManifestImpl)
    (layer : Descriptor) (cfg : Option Bytes) :
    (m.Desc.mediaType = MediaTypeDockerSchema2Manifest →
      (ReplaceWithLayer H cs m layer cfg).ret = .ok →
      (ReplaceWithLayer H cs m layer cfg).m.D.get "layers" = some (Json.arr
        [encodeDescriptor ⟨MediaTypeDockerSchema2LayerGzip, layer.digest, layer.size⟩])) ∧
    (m.Desc.mediaType = MediaTypeImageManifest →
      (ReplaceWithLayer H cs m layer cfg).ret = .ok →
      (ReplaceWithLayer H cs m layer cfg).m.D.get "layers" = some (Json.arr
        [encodeDescriptor ⟨MediaTypeImageLayerGzip, layer.digest, layer.size⟩])) ∧
    (m.Desc.mediaType ≠ MediaTypeDockerSchema2Manifest →
      m.Desc.mediaType ≠ MediaTypeImageManifest →
      (ReplaceWithLayer H cs m layer cfg).ret =
        .error (Err.unknownParentType m.Desc.mediaType) ∧
      (ReplaceWithLayer H cs m layer cfg).writes = [] ∧
      (ReplaceWithLayer H cs m layer cfg).cs = cs) := by
  have key : ∀ mt, layerMediaTypeFor m.Desc.mediaType = some mt →
      (ReplaceWithLayer H cs m layer cfg).ret = .ok →
      (ReplaceWithLayer H cs m layer cfg).m.D.get "layers" = some (Json.arr
        [encodeDescriptor ⟨mt, layer.digest, layer.size⟩]) := by
    intro mt hmt hok
    obtain ⟨mt', labels, diffIDStr, diffID, cfgDesc0, cfgDesc, cs1, cs2, ws, d,
      hmt', _, _, _, _, _, _, _, heq⟩ := ReplaceWithLayer_ok_inv H cs m layer cfg hok
    rw [hmt] at hmt'
    cases hmt'
    rw [heq]
    simp [GoMap.get, rewrittenEntries, assoc_set_self]
  refine ⟨fun h => key _ (by simp [layerMediaTypeFor, h]), fun h => key _ ?_, fun h1 h2 => ?_⟩
  · rw [h]
    decide
  · unfold ReplaceWithLayer
    simp [layerMediaTypeFor, h1, h2]

set_option maxRecDepth 100000 in
theorem replaceWithLayer_layer_media_type_witness :
    (ReplaceWithLayer exampleDigest exampleStore dockerManifest exampleLayer
        (some (.json exampleConfig))).m.D.get "layers" = some (Json.arr
      [encodeDescriptor ⟨MediaTypeDockerSchema2LayerGzip, exampleLayer.digest,
        exampleLayer.size⟩]) ∧
    (ReplaceWithLayer exampleDigest exampleStore exampleManifest
        ⟨"text/plain", exampleLayer.digest, exampleLayer.size⟩
        (some (.json exampleConfig))).m.D.get "layers" = some (Json.arr
      [encodeDescriptor ⟨MediaTypeImageLayerGzip, exampleLayer.digest, exampleLayer.size⟩]) ∧
    ((ReplaceWithLayer exampleDigest exampleStore listManifest exampleLayer
        (some (.json exampleConfig))).ret =
        .error (Err.unknownParentType MediaTypeDockerSchema2ManifestList) ∧
      (ReplaceWithLayer exampleDigest exampleStore listManifest exampleLayer
        (some (.json exampleConfig))).writes = [] ∧
      (ReplaceWithLayer exampleDigest exampleStore listManifest exampleLayer
        (some (.json exampleConfig))).cs = exampleStore) :=
  ⟨(replaceWithLayer_layer_media_type exampleDigest exampleStore dockerManifest exampleLayer
      (some (.json exampleConfig))).1 rfl rfl,
   (replaceWithLayer_layer_media_type exampleDigest exampleStore exampleManifest
      ⟨"text/plain", exampleLayer.digest, exampleLayer.size⟩
      (some (.json exampleConfig))).2.1 rfl rfl,
   (replaceWithLayer_layer_media_type exampleDigest exampleStore listManifest exampleLayer
      (some (.json exampleConfig))).2.2 (by decide) (by decide)⟩

/-- C7: on success the manifest blob is handed to `WriteBlob` with exactly two labels, one for
the config and one for each element of the new one-element `layers` list:
`containerd.io/gc.ref.content.0` is the digest of the config just written, and
`containerd.io/gc.ref.content.1` the digest of the new layer. -/
theorem replaceWithLayer_gc_labels (H : Bytes → String) (cs : Store) (m : ManifestImpl)
    (layer : Descriptor) (cfg : Option Bytes)
    (hok : (ReplaceWithLayer H cs m layer cfg).ret = .ok) :
    ∃ (configWrite manifestWrite : WriteReq) (newLayer : Descriptor),
      (ReplaceWithLayer H cs m layer cfg).writes = [configWrite, manifestWrite] ∧
      manifestWrite.data = Bytes.json (marshalMap (ReplaceWithLayer H cs m layer cfg).m.D) ∧
      manifestWrite.desc = (ReplaceWithLayer H cs m layer cfg).m.Desc ∧
      (ReplaceWithLayer H cs m layer cfg).m.D.get "config" =
        some (encodeDescriptor configWrite.desc) ∧
      (ReplaceWithLayer H cs m layer cfg).m.D.get "layers" =
        some (Json.arr [encodeDescriptor newLayer]) ∧
      newLayer.digest = layer.digest ∧
      manifestWrite.labels =
        [("containerd.io/gc.ref.content.0", configWrite.desc.digest),
         ("containerd.io/gc.ref.content.1", newLayer.digest)] ∧
      manifestWrite.labels.length = 1 + [newLayer].length := by
  obtain ⟨mt, labels, diffIDStr, diffID, cfgDesc0, cfgDesc, cs1, cs2, ws, d,
    _, _, _, _, _, hp, _, _, heq⟩ := ReplaceWithLayer_ok_inv H cs m layer cfg hok
  have hpok : (patchImageConfig H cs cfgDesc0 diffID cfg).ret = .ok := by rw [hp]
  obtain ⟨p, entries, rootFS, cs', _, _, _, _, hpe⟩ :=
    patchImageConfig_ok_inv H cs cfgDesc0 diffID cfg hpok
  rw [hpe] at hp
  cases hp
  rw [heq]
  refine ⟨_, _, { layer with mediaType := mt }, rfl, rfl, rfl, ?_, ?_, rfl, ?_, ?_⟩
  · simp only [GoMap.get, rewrittenEntries]
    rw [assoc_set_other _ _ _ _ (by decide), assoc_set_self]
  · simp [GoMap.get, rewrittenEntries, assoc_set_self]
  · simp [gcLabels, List.enum]
    decide
  · simp [gcLabels, List.enum]

set_option maxRecDepth 100000 in
theorem replaceWithLayer_gc_labels_witness :
    (ReplaceWithLayer exampleDigest exampleStore exampleManifest exampleLayer
        (some (.json exampleConfig))).ret = .ok ∧
    (∃ (configWrite manifestWrite : WriteReq) (newLayer : Descriptor),
      (ReplaceWithLayer exampleDigest exampleStore exampleManifest exampleLayer
        (some (.json exampleConfig))).writes = [configWrite, manifestWrite] ∧
      manifestWrite.data = Bytes.json (marshalMap
        (ReplaceWithLayer exampleDigest exampleStore exampleManifest exampleLayer
          (some (.json exampleConfig))).m.D) ∧
      manifestWrite.desc = (ReplaceWithLayer exampleDigest exampleStore exampleManifest
        exampleLayer (some (.json exampleConfig))).m.Desc ∧
      (ReplaceWithLayer exampleDigest exampleStore exampleManifest exampleLayer
        (some (.json exampleConfig))).m.D.get "config" =
        some (encodeDescriptor configWrite.desc) ∧
      (ReplaceWithLayer exampleDigest exampleStore exampleManifest exampleLayer
        (some (.json exampleConfig))).m.D.get "layers" =
        some (Json.arr [encodeDescriptor newLayer]) ∧
      newLayer.digest = exampleLayer.digest ∧
      manifestWrite.labels =
        [("containerd.io/gc.ref.content.0", configWrite.desc.digest),
         ("containerd.io/gc.ref.content.1", newLayer.digest)] ∧
      manifestWrite.labels.length = 1 + [newLayer].length) :=
  ⟨rfl,
   replaceWithLayer_gc_labels exampleDigest exampleStore exampleManifest exampleLayer
     (some (.json exampleConfig)) rfl⟩

set_option maxRecDepth 100000 in
/-- C3: when the write of the manifest blob fails, `ReplaceWithLayer` returns the error with the
descriptor untouched but with `config` and `layers` of the receiver's map already replaced:
the map is the one the local `d` aliases, and it was assigned to before the write. -/
theorem replaceWithLayer_error_after_map_rewrite :
    (ReplaceWithLayer exampleDigest rejectingStore exampleManifest exampleLayer
        (some (.json exampleConfig))).ret = .error (Err.writeFailed "sha256:330.28619") ∧
    (ReplaceWithLayer exampleDigest rejectingStore exampleManifest exampleLayer
        (some (.json exampleConfig))).m.Desc = exampleManifest.Desc ∧
    (ReplaceWithLayer exampleDigest rejectingStore exampleManifest exampleLayer
        (some (.json exampleConfig))).m.D.get "layers" =
      some (Json.arr [encodeDescriptor exampleLayer]) ∧
    (ReplaceWithLayer exampleDigest rejectingStore exampleManifest exampleLayer
        (some (.json exampleConfig))).m.D.get "config" =
      some (encodeDescriptor
        ⟨"application/vnd.oci.image.config.v1+json", "sha256:151.11813", 151⟩) ∧
    (ReplaceWithLayer exampleDigest rejectingStore exampleManifest exampleLayer
        (some (.json exampleConfig))).m.D ≠ exampleManifest.D := by
  refine ⟨rfl, rfl, rfl, rfl, ?_⟩
  decide

set_option maxRecDepth 100000 in
/-- C4, counterexample: three calls that succeed.  The example config has a member `vendor`
inside `rootfs`, and the config document written has none.  The `annotations` value of the
annotated manifest is written with white space and holds `&`, `<`, `>`, U+2028 and U+2029; the
manifest written holds it without the white space and with the five characters as `\u`
escapes, so not byte for byte.  The bare manifest has neither `config` nor `layers` and the bare config has no `rootfs`;
the manifest written has `config` and `layers`, and the config written has `rootfs`. -/
theorem replaceWithLayer_drops_rootfs_member :
    ((ReplaceWithLayer exampleDigest exampleStore exampleManifest exampleLayer
        (some (.json exampleConfig))).ret = .ok ∧
      rootfsMember (.json exampleConfig) "vendor" = some (.num "1") ∧
      (ReplaceWithLayer exampleDigest exampleStore exampleManifest exampleLayer
          (some (.json exampleConfig))).writes.head?.map
        (fun w => (rootfsMember w.data "vendor", rootfsMember w.data "type")) =
        some (none, some (.str "layers")) ∧
      (ReplaceWithLayer exampleDigest exampleStore exampleManifest exampleLayer
          (some (.json exampleConfig))).writes.head?.map (fun w => encodeDescriptor w.desc) =
        (ReplaceWithLayer exampleDigest exampleStore exampleManifest exampleLayer
          (some (.json exampleConfig))).m.D.get "config") ∧
    ((ReplaceWithLayer exampleDigest exampleStore annotatedManifest exampleLayer
        (some (.json exampleConfig))).ret = .ok ∧
      (annotatedManifest.D.get "annotations").map Json.render =
        some ("\x7b\"org.example.source\": \"https://example.org/?a=1&b=<2>\"," ++
          "\"org.example.note\":\n \"kept\"\n," ++
          "\"org.example.text\":\"line" ++ String.singleton (Char.ofNat 0x2028) ++ "par" ++
          String.singleton (Char.ofNat 0x2029) ++ "\"\x7d") ∧
      (ReplaceWithLayer exampleDigest exampleStore annotatedManifest exampleLayer
          (some (.json exampleConfig))).writes.getLast?.map
        (fun w => (memberOf w.data "annotations").map Json.render) =
        some (some ("\x7b\"org.example.source\":" ++
          "\"https://example.org/?a=1\\u0026b=\\u003c2\\u003e\"," ++
          "\"org.example.note\":\"kept\"," ++
          "\"org.example.text\":\"line\\u2028par\\u2029\"\x7d"))) ∧
    ((ReplaceWithLayer exampleDigest exampleStore bareManifest exampleLayer
        (some (.json bareConfig))).ret = .ok ∧
      bareManifest.D.get "config" = none ∧
      bareManifest.D.get "layers" = none ∧
      memberOf (.json bareConfig) "rootfs" = none ∧
      (ReplaceWithLayer exampleDigest exampleStore bareManifest exampleLayer
          (some (.json bareConfig))).writes.map
        (fun w => ((memberOf w.data "rootfs").isSome, (memberOf w.data "config").isSome,
          (memberOf w.data "layers").isSome)) =
        [(true, false, false), (false, true, true)]) :=
  ⟨⟨rfl, rfl, rfl, rfl⟩, ⟨rfl, rfl, rfl⟩, ⟨rfl, rfl, rfl, rfl, rfl⟩⟩

/-- C4, amended: on success the re-serialized manifest has, for every key other than `config`
and `layers`, under the key's name as the encoder writes it, the raw value the key had before
as `json.Marshal` re-emits a raw message (white space between tokens dropped, `<`, `>`, `&`,
U+2028, U+2029 written as escapes), lacks the key if it was absent, and has `config` and
`layers`; the re-serialized config has, for every key other than `rootfs`, the raw value of the
config that was patched, re-emitted the same way (and lacks the key if it was absent); its
`rootfs` is rebuilt from the decoded `type` and the new diff-ID alone; every member of either
document is under the name of a key. -/
theorem replaceWithLayer_preserves_other_keys (H : Bytes → String) (cs : Store)
    (m : ManifestImpl) (layer : Descriptor) (cfg : Option Bytes)
    (hok : (ReplaceWithLayer H cs m layer cfg).ret = .ok) :
    ∃ (d configIn configOut manifestOut : RawMap) (configDesc0 : Descriptor) (p : Bytes)
      (rootFS : RootFS) (diffID : String) (configWrite manifestWrite : WriteReq),
      m.D = some d ∧
      GetDescriptor (m.D.raw "config") = .ok configDesc0 ∧
      currentConfig cs configDesc0 cfg = .ok p ∧
      unmarshalBytes p = .ok (some configIn) ∧
      decodeRootFS (GoMap.raw (some configIn) "rootfs") = .ok rootFS ∧
      (ReplaceWithLayer H cs m layer cfg).writes = [configWrite, manifestWrite] ∧
      configWrite.data = Bytes.json (Json.obj configOut) ∧
      manifestWrite.data = Bytes.json (Json.obj manifestOut) ∧
      marshalMap (ReplaceWithLayer H cs m layer cfg).m.D = Json.obj manifestOut ∧
      (∀ k, k ≠ "config" → k ≠ "layers" →
        assoc manifestOut (quoteName k) = (assoc d k).map Json.compact) ∧
      (assoc manifestOut "config").isSome ∧
      (assoc manifestOut "layers").isSome ∧
      (∀ kv ∈ manifestOut, ∃ k, kv.1 = quoteName k) ∧
      (∀ k, k ≠ "rootfs" →
        assoc configOut (quoteName k) = (assoc configIn k).map Json.compact) ∧
      assoc configOut "rootfs" =
        some (Json.obj [("type", .str (escapeText rootFS.type)),
          ("diff_ids", .arr [.str diffID])]) ∧
      (∀ kv ∈ configOut, ∃ k, kv.1 = quoteName k) := by
  obtain ⟨mt, labels, diffIDStr, diffID, cfgDesc0, cfgDesc, cs1, cs2, ws, d,
    _, _, _, hd, hg, hp, hD, _, heq⟩ := ReplaceWithLayer_ok_inv H cs m layer cfg hok
  have hpok : (patchImageConfig H cs cfgDesc0 diffID cfg).ret = .ok := by rw [hp]
  obtain ⟨p, entries, rootFS, cs', hcur, hun, hdec, _, hpe⟩ :=
    patchImageConfig_ok_inv H cs cfgDesc0 diffID cfg hpok
  rw [hpe] at hp
  cases hp
  rw [heq]
  refine ⟨d, entries, _, _, cfgDesc0, p, rootFS, diffID, _, _, hD, hg, hcur, hun, hdec,
    rfl, rfl, rfl, rfl, ?_, ?_, ?_, names_marshalled _, ?_, ?_, names_marshalled _⟩
  · intro k h1 h2
    rw [assoc_marshalled]
    simp only [rewrittenEntries]
    rw [assoc_set_other _ _ _ _ h2, assoc_set_other _ _ _ _ h1]
  · rw [assoc_marshalled_plain _ _ (by decide)]
    simp only [rewrittenEntries]
    rw [assoc_set_other _ _ _ _ (by decide), assoc_set_self]
    rfl
  · rw [assoc_marshalled_plain _ _ (by decide)]
    simp only [rewrittenEntries]
    rw [assoc_set_self]
    rfl
  · intro k h1
    rw [assoc_marshalled, assoc_set_other _ _ _ _ h1]
  · rw [assoc_marshalled_plain _ _ (by decide), assoc_set_self]
    have h1 : escapeText "type" = "type" := by decide
    have h2 : escapeText "diff_ids" = "diff_ids" := by decide
    simp [encodeRootFS, Json.compact, Json.compactItems, Json.compactMembers, h1, h2,
      digestParse_plain _ _ hd]

set_option maxRecDepth 100000 in
theorem replaceWithLayer_preserves_other_keys_witness :
    (ReplaceWithLayer exampleDigest exampleStore annotatedManifest exampleLayer
        (some (.json exampleConfig))).ret = .ok ∧
    (∃ (d configIn configOut manifestOut : RawMap) (configDesc0 : Descriptor) (p : Bytes)
      (rootFS : RootFS) (diffID : String) (configWrite manifestWrite : WriteReq),
      annotatedManifest.D = some d ∧
      GetDescriptor (annotatedManifest.D.raw "config") = .ok configDesc0 ∧
      currentConfig exampleStore configDesc0 (some (.json exampleConfig)) = .ok p ∧
      unmarshalBytes p = .ok (some configIn) ∧
      decodeRootFS (GoMap.raw (some configIn) "rootfs") = .ok rootFS ∧
      (ReplaceWithLayer exampleDigest exampleStore annotatedManifest exampleLayer
        (some (.json exampleConfig))).writes = [configWrite, manifestWrite] ∧
      configWrite.data = Bytes.json (Json.obj configOut) ∧
      manifestWrite.data = Bytes.json (Json.obj manifestOut) ∧
      marshalMap (ReplaceWithLayer exampleDigest exampleStore annotatedManifest exampleLayer
        (some (.json exampleConfig))).m.D = Json.obj manifestOut ∧
      (∀ k, k ≠ "config" → k ≠ "layers" →
        assoc manifestOut (quoteName k) = (assoc d k).map Json.compact) ∧
      (assoc manifestOut "config").isSome ∧
      (assoc manifestOut "layers").isSome ∧
      (∀ kv ∈ manifestOut, ∃ k, kv.1 = quoteName k) ∧
      (∀ k, k ≠ "rootfs" →
        assoc configOut (quoteName k) = (assoc configIn k).map Json.compact) ∧
      assoc configOut "rootfs" =
        some (Json.obj [("type", .str (escapeText rootFS.type)),
          ("diff_ids", .arr [.str diffID])]) ∧
      (∀ kv ∈ configOut, ∃ k, kv.1 = quoteName k)) :=
  ⟨rfl,
   replaceWithLayer_preserves_other_keys exampleDigest exampleStore annotatedManifest
     exampleLayer (some (.json exampleConfig)) rfl⟩

/-! ## Platform selection -/

theorem assoc_foldl_set (members : List (String × Json)) (init : RawMap) (k : String) :
    assoc (members.foldl (fun m kv => RawMap.set m kv.1 kv.2.trim) init) k =
      match assoc (objectMap members) k with
      | some v => some v
      | none => assoc init k := by
  induction members generalizing init with
  | nil => simp [objectMap, assoc]
  | cons x xs ih =>
    have h1 := ih (RawMap.set init x.1 x.2.trim)
    have h2 := ih (RawMap.set [] x.1 x.2.trim)
    simp only [objectMap, List.foldl_cons] at h1 h2 ⊢
    rw [h1, h2]
    cases hA : assoc (objectMap xs) k with
    | some v => simp [objectMap] at hA ⊢; simp [hA]
    | none =>
      simp only [objectMap] at hA
      simp only [hA]
      by_cases hk : k = x.1
      · subst hk
        simp [assoc_set_self]
      · rw [assoc_set_other _ _ _ _ hk, assoc_set_other _ _ _ _ hk]
        simp [assoc]

theorem quote_eq_iff (a b : String) : ("\"" ++ a ++ "\"" = "\"" ++ b ++ "\"") ↔ a = b := by
  constructor
  · intro h
    have h' := congrArg String.data h
    simp only [String.data_append] at h'
    have h'' : a.data = b.data := by
      have := List.append_cancel_right h'
      exact List.append_cancel_left this
    exact String.ext h''
  · intro h
    rw [h]

theorem equalFold_quote (a b : String) :
    EqualFold ("\"" ++ a ++ "\"") ("\"" ++ b ++ "\"") =
      (a.data.map Char.toLower == b.data.map Char.toLower) := by
  unfold EqualFold
  simp only [String.data_append, List.map_append]
  have hq : ("\"" : String).data.map Char.toLower = ['"'] := by decide
  rw [hq]
  by_cases h : a.data.map Char.toLower = b.data.map Char.toLower
  · simp [h]
  · simp [h]

theorem platformMatches_strings (platform : List (String × Json)) (o a os arch : String)
    (ho : assoc (objectMap platform) "os" = some (.str o))
    (ha : assoc (objectMap platform) "architecture" = some (.str a)) :
    platformMatches (some (objectMap platform)) os arch =
      (o == os && a.data.map Char.toLower == arch.data.map Char.toLower) := by
  unfold platformMatches
  simp only [GoMap.get, ho, ha, rawText, Json.render]
  rw [equalFold_quote]
  congr 1
  by_cases h : o = os
  · simp [h]
  · have : ¬ ("\"" ++ o ++ "\"" = "\"" ++ os ++ "\"") := fun hh => h ((quote_eq_iff o os).1 hh)
    simp [h, this]

theorem decodeDescriptor_trim (j : Json) : decodeDescriptor j.trim = decodeDescriptor j := by
  unfold decodeDescriptor
  rw [Json.trim_trim]

theorem platformOf_trim (j : Json) : platformOf j.trim = platformOf j := by
  unfold platformOf
  rw [Json.trim_trim]

theorem wanted_trim (os arch : String) (j : Json) : wanted os arch j.trim = wanted os arch j := by
  unfold wanted
  rw [platformOf_trim]

theorem scanManifests_annotated (os arch : String) (children : List Json)
    (hann : ∀ c ∈ children, (platformOf c).isSome) (manifest_json : GoMap) :
    scanManifests os arch manifest_json children =
      match children.find? (wanted os arch) with
      | none => .error Err.noManifestForPlatform
      | some c => GetDescriptor c := by
  induction children generalizing manifest_json with
  | nil => simp [scanManifests]
  | cons c rest ih =>
    have hc := hann c (List.mem_cons_self _ _)
    have hrest : ∀ c' ∈ rest, (platformOf c').isSome := fun c' h' =>
      hann c' (List.mem_cons_of_mem _ h')
    unfold platformOf at hc
    cases hct : c.trim with
    | obj members =>
      simp only [hct] at hc
      cases hp : assoc (objectMap members) "platform" with
      | none => simp [hp] at hc
      | some pv =>
        cases pv with
        | obj platform =>
          cases ho : assoc (objectMap platform) "os" with
          | none => simp [hp, ho] at hc
          | some ov =>
            cases ha : assoc (objectMap platform) "architecture" with
            | none => simp [hp, ho, ha] at hc
            | some av =>
              cases ov <;> cases av <;> simp [hp, ho, ha] at hc
              rename_i o a
              have hw : wanted os arch c =
                  (o == os && a.data.map Char.toLower == arch.data.map Char.toLower) := by
                simp [wanted, platformOf, hct, hp, ho, ha]
              have hget : assoc (members.foldl (fun m kv => RawMap.set m kv.1 kv.2.trim)
                  (manifest_json.getD [])) "platform" = some (.obj platform) := by
                rw [assoc_foldl_set, hp]
              unfold scanManifests
              simp only [unmarshalMap, hct, GoMap.get, hget, Json.trim]
              have hpm := platformMatches_strings platform o a os arch ho ha
              simp only [objectMap] at hpm
              simp only [Option.getD_some, List.foldl_nil, hpm]
              rw [List.find?_cons, hw]
              by_cases hb : (o == os && a.data.map Char.toLower == arch.data.map Char.toLower) = true
              · simp [hb]
              · simp only [Bool.not_eq_true] at hb
                simp [hb, ih hrest]
        | _ => simp [hp] at hc
    | _ => simp [hct] at hc

theorem find_map_trim (os arch : String) (children : List Json) :
    (children.map Json.trim).find? (wanted os arch) =
      (children.find? (wanted os arch)).map Json.trim := by
  induction children with
  | nil => rfl
  | cons c rest ih =>
    simp only [List.map_cons, List.find?_cons, wanted_trim]
    cases wanted os arch c with
    | true => rfl
    | false => exact ih

theorem decodeMembers_error (d : Descriptor) (members : List (String × Json)) (e : Err)
    (h : Descriptor.decodeMembers d members = .error e) : e = Err.jsonType := by
  induction members generalizing d with
  | nil => simp [Descriptor.decodeMembers] at h
  | cons kv rest ih =>
    obtain ⟨k, v⟩ := kv
    unfold Descriptor.decodeMembers at h
    cases hm : Descriptor.decodeMember d k v with
    | ok d' =>
      rw [hm] at h
      exact ih d' h
    | error e' =>
      rw [hm] at h
      simp only [Except.error.injEq] at h
      subst h
      unfold Descriptor.decodeMember at hm
      repeat' split at hm
      all_goals first
        | (simp at hm; done)
        | (simp only [Except.error.injEq] at hm; exact hm.symm)

theorem GetDescriptor_error (j : Json) (e : Err) (h : GetDescriptor j = .error e) :
    e = Err.jsonType := by
  unfold GetDescriptor decodeDescriptor at h
  cases hj : j.trim with
  | null => simp [hj] at h
  | obj members =>
    rw [hj] at h
    exact decodeMembers_error _ _ _ h
  | bool b => simpa [hj] using h.symm
  | num n => simpa [hj] using h.symm
  | str s => simpa [hj] using h.symm
  | arr a => simpa [hj] using h.symm
  | spaced a v b => simpa [hj] using h.symm

theorem LoadManifest_error (cs : Store) (desc : Descriptor) (e : Err)
    (h : LoadManifest cs desc = .error e) : e ≠ Err.noManifestForPlatform := by
  unfold LoadManifest LoadManifestImpl ReadBlob at h
  cases hb : assoc cs.blobs desc.digest with
  | none =>
    simp only [hb, Except.error.injEq] at h
    subst h
    simp
  | some b =>
    simp only [hb] at h
    cases hd : b.data with
    | other raw =>
      simp only [hd, unmarshalBytes, Except.error.injEq] at h
      subst h
      simp
    | json j =>
      simp only [hd, unmarshalBytes, unmarshalMap] at h
      cases hj : j.trim <;> simp [hj] at h <;> subst h <;> simp

/-- C8, counterexample: the index lists a linux/arm64 child, the request is for linux/arm64,
the first wanted child is that one, and the call fails all the same: the store holds the index
and the linux/amd64 child only, so the wanted child's blob is not found. -/
theorem loadManifestFromList_fails_with_match :
    (∀ c ∈ [childEntry "sha256:a64" "linux" "amd64", childEntry "sha256:a32" "linux" "arm64"],
      (platformOf c).isSome) ∧
    [childEntry "sha256:a64" "linux" "amd64", childEntry "sha256:a32" "linux" "arm64"].find?
      (wanted "linux" "arm64") = some (childEntry "sha256:a32" "linux" "arm64") ∧
    LoadManifestFromList pulledStore indexDesc "linux" "arm64" =
      .error (Err.notFound "sha256:a32") ∧
    LoadManifestImplFromList pulledStore indexDesc "linux" "arm64" =
      .error (Err.notFound "sha256:a32") := by
  refine ⟨by decide, by decide, rfl, rfl⟩

/-- C8, amended: for an index whose children each carry a platform with `os` and
`architecture`, `LoadManifestFromList` (and `LoadManifestImplFromList`) returns what
`LoadManifest` returns on the descriptor of the first child, in array order, whose
`platform.os` is `os` and whose `platform.architecture` is `arch` up to letter case; it returns
the no-manifest-for-platform error if and only if no child is wanted, and with a wanted child
it fails exactly when decoding that child's descriptor or loading its blob fails. -/
theorem loadManifestFromList_first_wanted (cs : Store) (desc : Descriptor) (os arch : String)
    (p : Bytes) (index : GoMap) (children : List Json)
    (hread : ReadBlob cs desc = .ok p)
    (hparse : unmarshalBytes p = .ok index)
    (hlist : index.raw "manifests" = .arr children)
    (hann : ∀ c ∈ children, (platformOf c).isSome) :
    LoadManifestFromList cs desc os arch =
      (match children.find? (wanted os arch) with
       | none => .error Err.noManifestForPlatform
       | some c =>
         match GetDescriptor c with
         | .error e => .error e
         | .ok d => LoadManifest cs d) ∧
    LoadManifestImplFromList cs desc os arch = LoadManifestFromList cs desc os arch ∧
    (LoadManifestFromList cs desc os arch = .error Err.noManifestForPlatform ↔
      children.find? (wanted os arch) = none) := by
  have hmain : LoadManifestFromList cs desc os arch =
      (match children.find? (wanted os arch) with
       | none => .error Err.noManifestForPlatform
       | some c =>
         match GetDescriptor c with
         | .error e => .error e
         | .ok d => LoadManifest cs d) := by
    have hann' : ∀ c ∈ children.map Json.trim, (platformOf c).isSome := by
      intro c hc
      obtain ⟨c0, hc0, rfl⟩ := List.mem_map.1 hc
      rw [platformOf_trim]
      exact hann c0 hc0
    unfold LoadManifestFromList
    simp only [hread, hparse, hlist, decodeRawList, Json.trim]
    rw [scanManifests_annotated os arch (children.map Json.trim) hann', find_map_trim]
    cases children.find? (wanted os arch) with
    | none => rfl
    | some c =>
      simp only [Option.map_some', GetDescriptor, decodeDescriptor_trim]
  refine ⟨hmain, rfl, ?_⟩
  rw [hmain]
  cases hf : children.find? (wanted os arch) with
  | none => simp
  | some c =>
    simp only [reduceCtorEq, iff_false]
    cases hg : GetDescriptor c with
    | error e =>
      have := GetDescriptor_error c e hg
      subst this
      simp
    | ok d =>
      simp only
      intro hl
      exact LoadManifest_error cs d _ hl rfl

set_option maxRecDepth 100000 in
theorem loadManifestFromList_first_wanted_witness :
    (ReadBlob indexStore indexDesc = .ok (.json exampleIndex) ∧
      (∀ c ∈ [childEntry "sha256:a64" "linux" "amd64", childEntry "sha256:a32" "linux" "arm64"],
        (platformOf c).isSome)) ∧
    (LoadManifestFromList indexStore indexDesc "linux" "ARM64" =
      (match [childEntry "sha256:a64" "linux" "amd64",
              childEntry "sha256:a32" "linux" "arm64"].find? (wanted "linux" "ARM64") with
       | none => .error Err.noManifestForPlatform
       | some c =>
         match GetDescriptor c with
         | .error e => .error e
         | .ok d => LoadManifest indexStore d) ∧
     LoadManifestImplFromList indexStore indexDesc "linux" "ARM64" =
       LoadManifestFromList indexStore indexDesc "linux" "ARM64" ∧
     (LoadManifestFromList indexStore indexDesc "linux" "ARM64" =
        .error Err.noManifestForPlatform ↔
      [childEntry "sha256:a64" "linux" "amd64",
       childEntry "sha256:a32" "linux" "arm64"].find? (wanted "linux" "ARM64") = none)) :=
  ⟨⟨rfl, by decide⟩,
   loadManifestFromList_first_wanted indexStore indexDesc "linux" "ARM64" (.json exampleIndex)
     (some (objectMap [("schemaVersion", .num "2"),
        ("manifests", .arr [childEntry "sha256:a64" "linux" "amd64",
                            childEntry "sha256:a32" "linux" "arm64"])]))
     [childEntry "sha256:a64" "linux" "amd64", childEntry "sha256:a32" "linux" "arm64"]
     rfl rfl rfl (by decide)⟩

/-! ## Request handler and snapshot gateway -/

set_option maxRecDepth 100000 in
/-- C9: a request with an empty base reference for a pair that has no cached patch returns
`InvalidArgument` with the mutex of its patch path still locked, and the next request for the
same pair waits in `Lock` for ever; the same holds when the differ subprocess fails. -/
theorem calculateDeltaDiffs_error_leaves_mutex_locked :
    (CalculateDeltaDiffs failingDiffer freshWorld ⟨"", alpineImage.name⟩).ending =
      .returned ⟨Code.InvalidArgument, "image references are required"⟩ ∧
    assoc (CalculateDeltaDiffs failingDiffer freshWorld ⟨"", alpineImage.name⟩).world.mutexes
      "/tmp/delta-patch-from--to-alpine:latest.zst" = some true ∧
    (CalculateDeltaDiffs failingDiffer
      (CalculateDeltaDiffs failingDiffer freshWorld ⟨"", alpineImage.name⟩).world
      ⟨"", alpineImage.name⟩).ending = .blocked ∧
    (CalculateDeltaDiffs failingDiffer freshWorld ⟨alpineOld.name, alpineImage.name⟩).ending =
      .returned ⟨Code.InvalidArgument,
        "error creating snapshot diffs: error creating diff patch"⟩ ∧
    assoc (CalculateDeltaDiffs failingDiffer freshWorld
        ⟨alpineOld.name, alpineImage.name⟩).world.mutexes
      "/tmp/delta-patch-from-alpine:3.15.10-to-alpine:latest.zst" = some true ∧
    (CalculateDeltaDiffs failingDiffer
      (CalculateDeltaDiffs failingDiffer freshWorld ⟨alpineOld.name, alpineImage.name⟩).world
      ⟨alpineOld.name, alpineImage.name⟩).ending = .blocked := by
  refine ⟨by decide, by decide, by decide, by decide, by decide, by decide⟩

set_option maxRecDepth 100000 in
/-- C10: for an image whose tip snapshot is committed, `getMounts` creates the view
`<chainID>-view-<timestamp>` and returns its mounts, but the key it returns is empty; the
caller's deferred `Remove(key)` then fails and the view stays. -/
theorem getMounts_view_with_empty_key :
    unpackedSnapshots.Stat (exampleChainID ["sha256:d1"]) = .ok ⟨Kind.KindCommitted, ""⟩ ∧
    getMounts exampleChainID "2024-01-01T00:00:00Z" unpackedSnapshots alpineImage =
      (.ok ([⟨"chain/sha256:d1-view-2024-01-01T00:00:00Z"⟩], ""),
       ⟨unpackedSnapshots.snapshots ++
         [("chain/sha256:d1-view-2024-01-01T00:00:00Z", ⟨Kind.KindView, "chain/sha256:d1"⟩)]⟩) ∧
    (getMounts exampleChainID "2024-01-01T00:00:00Z" unpackedSnapshots alpineImage).2.Remove "" =
      ((getMounts exampleChainID "2024-01-01T00:00:00Z" unpackedSnapshots alpineImage).2, true) :=
  ⟨rfl, rfl, by decide⟩

/-! ## Streaming -/

theorem readChunks_join (size : Nat) (hsize : 0 < size) (fuel : Nat) (bytes : List Nat)
    (hfuel : bytes.length ≤ fuel) : (readChunks size fuel bytes).flatten = bytes := by
  induction fuel generalizing bytes with
  | zero =>
    have : bytes = [] := List.length_eq_zero.mp (Nat.le_zero.mp hfuel)
    subst this
    simp [readChunks]
  | succ fuel ih =>
    unfold readChunks
    by_cases hb : bytes = []
    · simp [hb]
    · have hpos : 0 < bytes.length := List.length_pos.mpr hb
      have hlen : (bytes.drop size).length ≤ fuel := by
        rw [List.length_drop]
        omega
      simp only [hb, if_false, List.flatten_cons, ih _ hlen, List.take_append_drop]

theorem readChunks_bounds (size : Nat) (hsize : 0 < size) (fuel : Nat) (bytes : List Nat) :
    ∀ c ∈ readChunks size fuel bytes, c ≠ [] ∧ c.length ≤ size := by
  induction fuel generalizing bytes with
  | zero => simp [readChunks]
  | succ fuel ih =>
    unfold readChunks
    by_cases hb : bytes = []
    · simp [hb]
    · simp only [hb, if_false, List.mem_cons]
      intro c hc
      rcases hc with hc | hc
      · subst hc
        constructor
        · intro h
          have h' := congrArg List.length h
          rw [List.length_take] at h'
          have hpos : 0 < bytes.length := List.length_pos.mpr hb
          simp only [List.length_nil] at h'
          omega
        · rw [List.length_take]
          exact Nat.min_le_left _ _
      · exact ih _ c hc

theorem assoc_writeFile_self (files : List (String × List Nat)) (path : String)
    (bytes : List Nat) : assoc (writeFile files path bytes) path = some bytes := by
  simp [writeFile, assoc]

theorem assoc_filter_ne (files : List (String × List Nat)) (path p : String) (h : p ≠ path) :
    assoc (files.filter (fun f => f.1 != path)) p = assoc files p := by
  induction files with
  | nil => rfl
  | cons f rest ih =>
    obtain ⟨k, v⟩ := f
    by_cases hk : k = path
    · subst hk
      simp [List.filter_cons, assoc, ih, Ne.symm h]
    · by_cases hp : k = p
      · subst hp
        simp [List.filter_cons, assoc, hk]
      · simp [List.filter_cons, assoc, hk, hp, ih]

theorem assoc_writeFile_other (files : List (String × List Nat)) (path p : String)
    (bytes : List Nat) (h : p ≠ path) :
    assoc (writeFile files path bytes) p = assoc files p := by
  simp only [writeFile, assoc, Ne.symm h, if_false]
  exact assoc_filter_ne files path p h

theorem createAndSend_sent (env : Env) (w : World) (n1 n2 pl : String) (image2 : Image)
    (from_root to_root : String) (patch z : List Nat)
    (hr : env.rsync to_root from_root = some patch) (hz : env.zstd patch = some z) :
    (createAndSend env w n1 n2 pl image2 from_root to_root).2.1 = (sendFile env z).2 := by
  unfold createAndSend
  simp only [hr, hz, assoc_writeFile_self]
  cases hs : sendFile env z with
  | mk st sent =>
    cases st with
    | some e => simp
    | none =>
      cases image2.size <;> simp

/-! ## The handler, path by path -/

theorem assoc_append_new {α : Type} (l : List (String × α)) (k : String) (v : α)
    (h : assoc l k = none) : assoc (l ++ [(k, v)]) k = some v := by
  induction l with
  | nil => simp [assoc]
  | cons e rest ih =>
    obtain ⟨k', v'⟩ := e
    by_cases hk : k' = k
    · simp [assoc, hk] at h
    · simp only [assoc, hk, if_false] at h
      simp [assoc, hk, ih h]

theorem assoc_append_other {α : Type} (l : List (String × α)) (k p : String) (v : α)
    (h : p ≠ k) : assoc (l ++ [(k, v)]) p = assoc l p := by
  induction l with
  | nil => simp [assoc, Ne.symm h]
  | cons e rest ih =>
    obtain ⟨k', v'⟩ := e
    by_cases hk : k' = p
    · simp [assoc, hk]
    · simp only [List.cons_append, assoc, hk, if_false]
      exact ih

theorem setLock_cons_eq (k : String) (v : Bool) (rest : List (String × Bool)) (b : Bool) :
    setLock ((k, v) :: rest) k b = (k, b) :: setLock rest k b := by
  simp [setLock]

theorem setLock_cons_ne (k : String) (v : Bool) (rest : List (String × Bool)) (path : String)
    (b : Bool) (h : k ≠ path) :
    setLock ((k, v) :: rest) path b = (k, v) :: setLock rest path b := by
  simp [setLock, h]

theorem assoc_setLock_self (m : List (String × Bool)) (path : String) (b : Bool)
    (h : (assoc m path).isSome) : assoc (setLock m path b) path = some b := by
  induction m with
  | nil => simp [assoc] at h
  | cons e rest ih =>
    obtain ⟨k, v⟩ := e
    by_cases hk : k = path
    · subst hk
      rw [setLock_cons_eq]
      simp [assoc]
    · rw [setLock_cons_ne _ _ _ _ _ hk]
      simp only [assoc, hk, if_false] at h ⊢
      exact ih h

theorem assoc_setLock_other (m : List (String × Bool)) (path p : String) (b : Bool)
    (h : p ≠ path) : assoc (setLock m path b) p = assoc m p := by
  induction m with
  | nil => rfl
  | cons e rest ih =>
    obtain ⟨k, v⟩ := e
    by_cases hk : k = path
    · subst hk
      rw [setLock_cons_eq]
      simp only [assoc, Ne.symm h, if_false]
      exact ih
    · rw [setLock_cons_ne _ _ _ _ _ hk]
      by_cases hp : k = p
      · simp only [assoc, hp, if_true]
      · simp only [assoc, hp, if_false]
        exact ih

/-- The `mutexes` map once the handler has made sure the path has a mutex. -/
theorem withMutex_isSome (m : List (String × Bool)) (path : String) :
    (assoc (if (assoc m path).isSome then m else m ++ [(path, false)]) path).isSome := by
  by_cases h : (assoc m path).isSome
  · simp [h]
  · have hn : assoc m path = none := by
      cases hh : assoc m path with
      | none => rfl
      | some v => simp [hh] at h
    simp [h, assoc_append_new m path false hn]

theorem withMutex_free (m : List (String × Bool)) (path : String)
    (hfree : assoc m path ≠ some true) :
    assoc (if (assoc m path).isSome then m else m ++ [(path, false)]) path ≠ some true := by
  by_cases h : (assoc m path).isSome
  · simpa [h] using hfree
  · have hn : assoc m path = none := by
      cases hh : assoc m path with
      | none => rfl
      | some v => simp [hh] at h
    simp [h, assoc_append_new m path false hn]

theorem CalculateDeltaDiffs_hit (env : Env) (w : World) (r : CalcImageDiffsRequest)
    (bytes : List Nat)
    (hfile : assoc w.files (patchPath r) = some bytes)
    (hfree : assoc w.mutexes (patchPath r) ≠ some true) :
    CalculateDeltaDiffs env w r =
      ⟨.returned ((sendFile env bytes).1.getD ⟨Code.OK, ""⟩), (sendFile env bytes).2,
        { w with mutexes := setLock (setLock
          (if (assoc w.mutexes (patchPath r)).isSome then w.mutexes
            else w.mutexes ++ [(patchPath r, false)]) (patchPath r) true) (patchPath r) false }⟩ := by
  have hfree' := withMutex_free w.mutexes (patchPath r) hfree
  unfold CalculateDeltaDiffs
  simp only [patchPath] at hfile hfree' ⊢
  by_cases h : (assoc w.mutexes
      ("/tmp/delta-patch-from-" ++ imageName r.Image1 ++ "-to-" ++ imageName r.Image2 ++ ".zst")).isSome
  · simp only [h, if_true] at hfree' ⊢
    simp only [hfree', if_false, hfile]
    cases hs : sendFile env bytes with
    | mk st sent => cases st <;> simp
  · simp only [h] at hfree' ⊢
    simp only [Bool.false_eq_true, if_false] at hfree' ⊢
    simp only [hfree', if_false, hfile]
    cases hs : sendFile env bytes with
    | mk st sent => cases st <;> simp

theorem CalculateDeltaDiffs_empty_ref (env : Env) (w : World) (r : CalcImageDiffsRequest)
    (hempty : r.Image1 = "" ∨ r.Image2 = "")
    (hfile : assoc w.files (patchPath r) = none)
    (hfree : assoc w.mutexes (patchPath r) ≠ some true) :
    CalculateDeltaDiffs env w r =
      ⟨.returned ⟨Code.InvalidArgument, "image references are required"⟩, [],
        { w with mutexes := (setLock
          (if (assoc w.mutexes (patchPath r)).isSome then w.mutexes
            else w.mutexes ++ [(patchPath r, false)]) (patchPath r) true) }⟩ := by
  have hfree' := withMutex_free w.mutexes (patchPath r) hfree
  unfold CalculateDeltaDiffs
  simp only [patchPath] at hfile hfree' ⊢
  by_cases h : (assoc w.mutexes
      ("/tmp/delta-patch-from-" ++ imageName r.Image1 ++ "-to-" ++ imageName r.Image2 ++ ".zst")).isSome
  · simp only [h, if_true] at hfree' ⊢
    simp only [hfree', if_false, hfile, hempty, if_true]
  · simp only [h] at hfree' ⊢
    simp only [Bool.false_eq_true, if_false] at hfree' ⊢
    simp only [hfree', if_false, hfile, hempty, if_true]

theorem sendFile_of_sendLimit (env env' : Env) (bytes : List Nat)
    (h : env'.sendLimit = env.sendLimit) : sendFile env' bytes = sendFile env bytes := by
  unfold sendFile
  rw [h]

/-- C11: the streaming loop cuts the file into chunks that are each non-empty and at most
32768 bytes long and whose concatenation, in order, is the file; the chunks sent are these, all
of them unless a `Send` fails (then the ones before the failure); the hit path and the compute
path send through the same loop. -/
theorem stream_chunks (env : Env) (bytes : List Nat) :
    (∀ c ∈ readChunks CHUNK_SIZE bytes.length bytes, c ≠ [] ∧ c.length ≤ 32768) ∧
    (readChunks CHUNK_SIZE bytes.length bytes).flatten = bytes ∧
    (env.sendLimit = none →
      (sendFile env bytes).2 = readChunks CHUNK_SIZE bytes.length bytes) ∧
    (∃ n, (sendFile env bytes).2 = (readChunks CHUNK_SIZE bytes.length bytes).take n) ∧
    (∀ (w : World) (r : CalcImageDiffsRequest),
      assoc w.files (patchPath r) = some bytes →
      assoc w.mutexes (patchPath r) ≠ some true →
      (CalculateDeltaDiffs env w r).sent = (sendFile env bytes).2) ∧
    (∀ (w : World) (n1 n2 pl : String) (image2 : Image) (from_root to_root : String)
        (patch : List Nat),
      env.rsync to_root from_root = some patch →
      env.zstd patch = some bytes →
      (createAndSend env w n1 n2 pl image2 from_root to_root).2.1 = (sendFile env bytes).2) := by
  refine ⟨?_, ?_, ?_, ?_, ?_, ?_⟩
  · exact readChunks_bounds CHUNK_SIZE (by decide) bytes.length bytes
  · exact readChunks_join CHUNK_SIZE (by decide) bytes.length bytes (Nat.le_refl _)
  · intro h
    simp [sendFile, h]
  · unfold sendFile
    cases env.sendLimit with
    | none => exact ⟨(readChunks CHUNK_SIZE bytes.length bytes).length, by simp⟩
    | some n =>
      by_cases hn : n < (readChunks CHUNK_SIZE bytes.length bytes).length
      · exact ⟨n, by simp [hn]⟩
      · exact ⟨(readChunks CHUNK_SIZE bytes.length bytes).length, by simp [hn]⟩
  · intro w r hfile hfree
    rw [CalculateDeltaDiffs_hit env w r bytes hfile hfree]
  · intro w n1 n2 pl image2 from_root to_root patch hr hz
    exact createAndSend_sent env w n1 n2 pl image2 from_root to_root patch bytes hr hz

set_option maxRecDepth 100000 in
theorem stream_chunks_witness :
    (workingEnv.sendLimit = none ∧
      assoc seededWorld.files (patchPath alpineRequest) = some cachedPatch ∧
      assoc seededWorld.mutexes (patchPath alpineRequest) ≠ some true ∧
      workingEnv.rsync "/to" "/from" = some [114, 115, 121, 110, 99] ∧
      workingEnv.zstd [114, 115, 121, 110, 99] = some [40, 181, 47, 253, 114, 115, 121, 110, 99]) ∧
    ((∀ c ∈ readChunks CHUNK_SIZE (List.replicate 40000 7).length (List.replicate 40000 7),
        c ≠ [] ∧ c.length ≤ 32768) ∧
      (readChunks CHUNK_SIZE (List.replicate 40000 7).length
        (List.replicate 40000 7)).flatten = List.replicate 40000 7 ∧
      (sendFile workingEnv cachedPatch).2 =
        readChunks CHUNK_SIZE cachedPatch.length cachedPatch ∧
      (CalculateDeltaDiffs workingEnv seededWorld alpineRequest).sent =
        (sendFile workingEnv cachedPatch).2 ∧
      (createAndSend workingEnv freshWorld "a" "b" "/tmp/delta-patch-from-a-to-b.zst" alpineImage
          "/from" "/to").2.1 =
        (sendFile workingEnv [40, 181, 47, 253, 114, 115, 121, 110, 99]).2) :=
  ⟨⟨rfl, rfl, by decide, rfl, rfl⟩,
   (stream_chunks workingEnv (List.replicate 40000 7)).1,
   (stream_chunks workingEnv (List.replicate 40000 7)).2.1,
   (stream_chunks workingEnv cachedPatch).2.2.1 rfl,
   (stream_chunks workingEnv cachedPatch).2.2.2.2.1 seededWorld alpineRequest rfl (by decide),
   (stream_chunks workingEnv [40, 181, 47, 253, 114, 115, 121, 110, 99]).2.2.2.2.2 freshWorld
     "a" "b" "/tmp/delta-patch-from-a-to-b.zst" alpineImage "/from" "/to"
     [114, 115, 121, 110, 99] rfl rfl⟩

/-- C12: when the compressed patch of the pair is on disk (and the mutex of its path can be
taken and the client receives every message), the handler returns OK having sent chunks whose
concatenation is exactly the file, leaves the mutex released, and leaves the files, the known
images and the snapshots as they were; its outcome is the same whatever the registry, the
mounts, the differ, the compressor and the clock would have answered. -/
theorem calculateDeltaDiffs_hit_path (env : Env) (w : World) (r : CalcImageDiffsRequest)
    (bytes : List Nat)
    (hfile : assoc w.files (patchPath r) = some bytes)
    (hfree : assoc w.mutexes (patchPath r) ≠ some true)
    (hsend : env.sendLimit = none) :
    (CalculateDeltaDiffs env w r).ending = .returned ⟨Code.OK, ""⟩ ∧
    (CalculateDeltaDiffs env w r).sent.flatten = bytes ∧
    assoc (CalculateDeltaDiffs env w r).world.mutexes (patchPath r) = some false ∧
    (∀ p, p ≠ patchPath r →
      assoc (CalculateDeltaDiffs env w r).world.mutexes p = assoc w.mutexes p) ∧
    (CalculateDeltaDiffs env w r).world.files = w.files ∧
    (CalculateDeltaDiffs env w r).world.images = w.images ∧
    (CalculateDeltaDiffs env w r).world.sn = w.sn ∧
    (∀ env' : Env, env'.sendLimit = env.sendLimit →
      CalculateDeltaDiffs env' w r = CalculateDeltaDiffs env w r) := by
  have hs : sendFile env bytes = (none, readChunks CHUNK_SIZE bytes.length bytes) := by
    simp [sendFile, hsend]
  rw [CalculateDeltaDiffs_hit env w r bytes hfile hfree, hs]
  refine ⟨rfl, ?_, ?_, ?_, rfl, rfl, rfl, ?_⟩
  · exact readChunks_join CHUNK_SIZE (by decide) bytes.length bytes (Nat.le_refl _)
  · apply assoc_setLock_self
    rw [assoc_setLock_self _ _ _ (withMutex_isSome w.mutexes (patchPath r))]
    rfl
  · intro p hp
    simp only
    rw [assoc_setLock_other _ _ _ _ hp, assoc_setLock_other _ _ _ _ hp]
    by_cases h : (assoc w.mutexes (patchPath r)).isSome
    · simp [h]
    · simp only [h, Bool.false_eq_true, if_false]
      exact assoc_append_other w.mutexes (patchPath r) p false hp
  · intro env' h'
    rw [CalculateDeltaDiffs_hit env' w r bytes hfile hfree, sendFile_of_sendLimit env env' bytes h',
      hs]

set_option maxRecDepth 100000 in
theorem calculateDeltaDiffs_hit_path_witness :
    (assoc seededWorld.files (patchPath alpineRequest) = some cachedPatch ∧
      assoc seededWorld.mutexes (patchPath alpineRequest) ≠ some true ∧
      failingDiffer.sendLimit = none) ∧
    (CalculateDeltaDiffs failingDiffer seededWorld alpineRequest).sent = [cachedPatch] ∧
    ((CalculateDeltaDiffs failingDiffer seededWorld alpineRequest).ending =
        .returned ⟨Code.OK, ""⟩ ∧
      (CalculateDeltaDiffs failingDiffer seededWorld alpineRequest).sent.flatten = cachedPatch ∧
      assoc (CalculateDeltaDiffs failingDiffer seededWorld alpineRequest).world.mutexes
        (patchPath alpineRequest) = some false ∧
      (∀ p, p ≠ patchPath alpineRequest →
        assoc (CalculateDeltaDiffs failingDiffer seededWorld alpineRequest).world.mutexes p =
          assoc seededWorld.mutexes p) ∧
      (CalculateDeltaDiffs failingDiffer seededWorld alpineRequest).world.files =
        seededWorld.files ∧
      (CalculateDeltaDiffs failingDiffer seededWorld alpineRequest).world.images =
        seededWorld.images ∧
      (CalculateDeltaDiffs failingDiffer seededWorld alpineRequest).world.sn = seededWorld.sn ∧
      (∀ env' : Env, env'.sendLimit = failingDiffer.sendLimit →
        CalculateDeltaDiffs env' seededWorld alpineRequest =
          CalculateDeltaDiffs failingDiffer seededWorld alpineRequest)) :=
  ⟨⟨rfl, by decide, rfl⟩, by decide,
   calculateDeltaDiffs_hit_path failingDiffer seededWorld alpineRequest cachedPatch rfl
     (by decide) rfl⟩

/-! ## Paths -/

theorem lastSegment_spec (cs acc : List Char) (hacc : '/' ∉ acc) :
    '/' ∉ lastSegment cs acc ∧
    ∃ pre, acc.reverse ++ cs = pre ++ lastSegment cs acc ∧
      (pre = [] ∨ pre.getLast? = some '/') := by
  induction cs generalizing acc with
  | nil =>
    refine ⟨by simpa [lastSegment] using hacc, [], by simp [lastSegment], Or.inl rfl⟩
  | cons c cs ih =>
    unfold lastSegment
    by_cases hc : c = '/'
    · subst hc
      obtain ⟨h1, pre, h2, h3⟩ := ih [] (by simp)
      simp only [if_true]
      refine ⟨h1, acc.reverse ++ '/' :: pre, ?_, Or.inr ?_⟩
      · simp only [List.reverse_nil, List.nil_append] at h2
        rw [List.append_assoc, List.cons_append, ← h2]
      · rw [List.getLast?_append]
        cases pre with
        | nil => simp
        | cons p ps =>
          rcases h3 with h | h
          · simp at h
          · rw [List.getLast?_cons_cons, h]
            rfl
    · simp only [hc, if_false]
      have hacc' : '/' ∉ c :: acc := by
        simp only [List.mem_cons, not_or]
        exact ⟨fun h => hc h.symm, hacc⟩
      obtain ⟨h1, pre, h2, h3⟩ := ih (c :: acc) hacc'
      refine ⟨h1, pre, ?_, h3⟩
      rw [← h2]
      simp

theorem imageName_spec (ref : String) :
    '/' ∉ (imageName ref).data ∧
    ∃ pre, ref.data = pre ++ (imageName ref).data ∧ (pre = [] ∨ pre.getLast? = some '/') := by
  have h := lastSegment_spec ref.data [] (by simp)
  simpa [imageName] using h

theorem imageName_no_slash (ref : String) (h : '/' ∉ ref.data) : imageName ref = ref := by
  obtain ⟨_, pre, h2, h3⟩ := imageName_spec ref
  have hpre : pre = [] := by
    rcases h3 with h3 | h3
    · exact h3
    · exfalso
      apply h
      rw [h2]
      exact List.mem_append_left _ (List.mem_of_getLast?_eq_some h3)
  subst hpre
  simp only [List.nil_append] at h2
  exact String.ext h2.symm

theorem patchPath_eq (r : CalcImageDiffsRequest) : patchPath r = rawPatchPath r ++ ".zst" := rfl

theorem rawPatchPath_eq (n1 n2 : String) :
    "/tmp/" ++ ("delta-patch-from-" ++ n1 ++ "-to-" ++ n2) =
      "/tmp/delta-patch-from-" ++ n1 ++ "-to-" ++ n2 := by
  apply String.ext
  simp [String.data_append]

theorem getOrPull_frame (env : Env) (w w' : World) (ref : String) (image : Image)
    (h : getOrPull env w ref = some (image, w')) :
    w'.files = w.files ∧ w'.mutexes = w.mutexes := by
  unfold getOrPull at h
  cases hi : assoc w.images ref with
  | some im =>
    simp only [hi, Option.some.injEq, Prod.mk.injEq] at h
    rw [← h.2]
    exact ⟨rfl, rfl⟩
  | none =>
    simp only [hi] at h
    cases hr : env.registry ref with
    | none => simp [hr] at h
    | some im =>
      simp only [hr, Option.some.injEq, Prod.mk.injEq] at h
      rw [← h.2]
      exact ⟨rfl, rfl⟩

theorem createAndSend_files (env : Env) (w : World) (n1 n2 pl : String) (image2 : Image)
    (from_root to_root : String) (p : String)
    (h1 : p ≠ "/tmp/delta-patch-from-" ++ n1 ++ "-to-" ++ n2)
    (h2 : p ≠ "/tmp/delta-patch-from-" ++ n1 ++ "-to-" ++ n2 ++ ".zst") :
    assoc (createAndSend env w n1 n2 pl image2 from_root to_root).2.2.files p =
      assoc w.files p := by
  unfold createAndSend
  simp only [rawPatchPath_eq]
  cases hr : env.rsync to_root from_root with
  | none => rfl
  | some patch =>
    simp only []
    cases hz : env.zstd patch with
    | none => simp [assoc_writeFile_other _ _ _ _ h1]
    | some z =>
      simp only [assoc_writeFile_self]
      cases hs : sendFile env z with
      | mk st sent =>
        cases st with
        | some e => simp [assoc_writeFile_other _ _ _ _ h1, assoc_writeFile_other _ _ _ _ h2]
        | none =>
          cases image2.size <;>
            simp [assoc_writeFile_other _ _ _ _ h1, assoc_writeFile_other _ _ _ _ h2]

theorem createAndSend_mutexes (env : Env) (w : World) (n1 n2 pl : String) (image2 : Image)
    (from_root to_root : String) :
    (createAndSend env w n1 n2 pl image2 from_root to_root).2.2.mutexes = w.mutexes ∨
    (createAndSend env w n1 n2 pl image2 from_root to_root).2.2.mutexes =
      setLock w.mutexes pl false := by
  unfold createAndSend
  cases hr : env.rsync to_root from_root with
  | none => exact Or.inl rfl
  | some patch =>
    right
    simp only []
    cases hz : env.zstd patch with
    | none => rfl
    | some z =>
      simp only [assoc_writeFile_self]
      cases hs : sendFile env z with
      | mk st sent =>
        cases st with
        | some e => rfl
        | none => cases image2.size <;> rfl

theorem createAndSend_written (env : Env) (w : World) (n1 n2 pl : String) (image2 : Image)
    (from_root to_root : String) (patch z : List Nat)
    (hr : env.rsync to_root from_root = some patch) (hz : env.zstd patch = some z) :
    assoc (createAndSend env w n1 n2 pl image2 from_root to_root).2.2.files
        ("/tmp/delta-patch-from-" ++ n1 ++ "-to-" ++ n2) = some patch ∧
    assoc (createAndSend env w n1 n2 pl image2 from_root to_root).2.2.files
        ("/tmp/delta-patch-from-" ++ n1 ++ "-to-" ++ n2 ++ ".zst") = some z := by
  have hne : "/tmp/delta-patch-from-" ++ n1 ++ "-to-" ++ n2 ≠
      "/tmp/delta-patch-from-" ++ n1 ++ "-to-" ++ n2 ++ ".zst" := by
    intro h
    have h' := congrArg String.length h
    simp only [String.length_append] at h'
    have h4 : ".zst".length = 4 := by decide
    omega
  unfold createAndSend
  simp only [rawPatchPath_eq, hr, hz, assoc_writeFile_self]
  cases hs : sendFile env z with
  | mk st sent =>
    cases st with
    | some e => simp [assoc_writeFile_self, assoc_writeFile_other _ _ _ _ hne]
    | none =>
      cases image2.size <;> simp [assoc_writeFile_self, assoc_writeFile_other _ _ _ _ hne]

theorem CalculateDeltaDiffs_world (env : Env) (w : World) (r : CalcImageDiffsRequest) :
    (∀ p, p ≠ rawPatchPath r → p ≠ patchPath r →
      assoc (CalculateDeltaDiffs env w r).world.files p = assoc w.files p) ∧
    (∃ m0 : List (String × Bool),
      (m0 = w.mutexes ∨ m0 = w.mutexes ++ [(patchPath r, false)]) ∧
      (assoc m0 (patchPath r)).isSome ∧
      ((CalculateDeltaDiffs env w r).world.mutexes = m0 ∨
        (CalculateDeltaDiffs env w r).world.mutexes = setLock m0 (patchPath r) true ∨
        (CalculateDeltaDiffs env w r).world.mutexes =
          setLock (setLock m0 (patchPath r) true) (patchPath r) false)) := by
  -- the state once the path has its mutex
  obtain ⟨W0, hW0f, hW0m, hW0s, hW0⟩ : ∃ W0 : World, W0.files = w.files ∧
      (W0.mutexes = w.mutexes ∨ W0.mutexes = w.mutexes ++ [(patchPath r, false)]) ∧
      (assoc W0.mutexes (patchPath r)).isSome ∧
      W0 = (if (assoc w.mutexes (patchPath r)).isSome then w
        else { w with mutexes := w.mutexes ++ [(patchPath r, false)] }) := by
    by_cases h : (assoc w.mutexes (patchPath r)).isSome
    · exact ⟨w, rfl, Or.inl rfl, h, by simp [h]⟩
    · refine ⟨{ w with mutexes := w.mutexes ++ [(patchPath r, false)] }, rfl, Or.inr rfl, ?_,
        by simp [h]⟩
      have hn : assoc w.mutexes (patchPath r) = none := by
        cases hh : assoc w.mutexes (patchPath r) with
        | none => rfl
        | some v => simp [hh] at h
      simp [assoc_append_new w.mutexes (patchPath r) false hn]
  unfold CalculateDeltaDiffs
  simp only [patchPath, rawPatchPath] at hW0 hW0m hW0s ⊢
  simp only [← hW0]
  by_cases hl : assoc W0.mutexes ("/tmp/delta-patch-from-" ++ imageName r.Image1 ++ "-to-" ++
      imageName r.Image2 ++ ".zst") = some true
  · simp only [hl, if_true]
    exact ⟨fun p _ _ => by rw [hW0f], W0.mutexes, hW0m, hW0s, Or.inl rfl⟩
  · simp only [hl, if_false]
    have fin : ∀ (files : List (String × List Nat)) (mutexes : List (String × Bool)),
        (∀ p, p ≠ "/tmp/delta-patch-from-" ++ imageName r.Image1 ++ "-to-" ++ imageName r.Image2 →
          p ≠ "/tmp/delta-patch-from-" ++ imageName r.Image1 ++ "-to-" ++ imageName r.Image2 ++
            ".zst" → assoc files p = assoc W0.files p) →
        (mutexes = setLock W0.mutexes ("/tmp/delta-patch-from-" ++ imageName r.Image1 ++
            "-to-" ++ imageName r.Image2 ++ ".zst") true ∨
          mutexes = setLock (setLock W0.mutexes ("/tmp/delta-patch-from-" ++
            imageName r.Image1 ++ "-to-" ++ imageName r.Image2 ++ ".zst") true)
            ("/tmp/delta-patch-from-" ++ imageName r.Image1 ++ "-to-" ++ imageName r.Image2 ++
              ".zst") false) →
        (∀ p, p ≠ "/tmp/delta-patch-from-" ++ imageName r.Image1 ++ "-to-" ++ imageName r.Image2 →
          p ≠ "/tmp/delta-patch-from-" ++ imageName r.Image1 ++ "-to-" ++ imageName r.Image2 ++
            ".zst" → assoc files p = assoc w.files p) ∧
        (∃ m0 : List (String × Bool),
          (m0 = w.mutexes ∨ m0 = w.mutexes ++ [("/tmp/delta-patch-from-" ++ imageName r.Image1 ++
            "-to-" ++ imageName r.Image2 ++ ".zst", false)]) ∧
          (assoc m0 ("/tmp/delta-patch-from-" ++ imageName r.Image1 ++ "-to-" ++
            imageName r.Image2 ++ ".zst")).isSome ∧
          (mutexes = m0 ∨
            mutexes = setLock m0 ("/tmp/delta-patch-from-" ++ imageName r.Image1 ++
              "-to-" ++ imageName r.Image2 ++ ".zst") true ∨
            mutexes = setLock (setLock m0 ("/tmp/delta-patch-from-" ++
              imageName r.Image1 ++ "-to-" ++ imageName r.Image2 ++ ".zst") true)
              ("/tmp/delta-patch-from-" ++ imageName r.Image1 ++ "-to-" ++ imageName r.Image2 ++
                ".zst") false)) := by
      intro files mutexes hf hm
      refine ⟨fun p h1 h2 => by rw [hf p h1 h2, hW0f], W0.mutexes, hW0m, hW0s, Or.inr hm⟩
    cases hfile : assoc W0.files ("/tmp/delta-patch-from-" ++ imageName r.Image1 ++ "-to-" ++
        imageName r.Image2 ++ ".zst") with
    | some bytes =>
      simp only []
      cases hs : sendFile env bytes with
      | mk st sent =>
        cases st with
        | some e =>
          simp only []
          exact fin _ _ (fun p _ _ => rfl) (Or.inr rfl)
        | none =>
          simp only []
          exact fin _ _ (fun p _ _ => rfl) (Or.inr rfl)
    | none =>
      simp only []
      by_cases he : r.Image1 = "" ∨ r.Image2 = ""
      · simp only [he, if_true]
        exact fin _ _ (fun p _ _ => rfl) (Or.inl rfl)
      · simp only [he, if_false]
        split
        · exact fin _ _ (fun p _ _ => rfl) (Or.inl rfl)
        · rename_i image1 wA h1
          have hA := getOrPull_frame env _ wA r.Image1 image1 h1
          simp only [] at hA
          split
          · exact fin _ _ (fun p _ _ => by rw [hA.1]) (Or.inl hA.2)
          · rename_i image2 wB h2
            have hB := getOrPull_frame env _ wB r.Image2 image2 h2
            split
            · exact fin _ _ (fun p _ _ => by simp only [hB.1, hA.1])
                (Or.inl (by simp only [hB.2, hA.2]))
            · rename_i x1 mounts1 key1 sn1 hg1
              split
              · exact fin _ _ (fun p _ _ => by simp only [hB.1, hA.1])
                  (Or.inl (by simp only [hB.2, hA.2]))
              · rename_i x2 mounts2 key2 sn2 hg2
                have hfB : ∀ p, assoc wB.files p = assoc W0.files p := fun p => by
                  simp only [hB.1, hA.1]
                have hmB : wB.mutexes = setLock W0.mutexes ("/tmp/delta-patch-from-" ++
                    imageName r.Image1 ++ "-to-" ++ imageName r.Image2 ++ ".zst") true := by
                  simp only [hB.2, hA.2]
                cases hm1 : env.tempMount mounts1 with
                | none =>
                  simp only []
                  exact fin _ _ (fun p _ _ => hfB p) (Or.inl hmB)
                | some from_root =>
                  simp only []
                  cases hm2 : env.tempMount mounts2 with
                  | none =>
                    simp only []
                    exact fin _ _ (fun p _ _ => hfB p) (Or.inl hmB)
                  | some to_root =>
                    simp only []
                    have hcf := createAndSend_files env
                      { mutexes := wB.mutexes, files := wB.files, images := wB.images, sn := sn2 }
                      (imageName r.Image1) (imageName r.Image2)
                      ("/tmp/delta-patch-from-" ++ imageName r.Image1 ++ "-to-" ++
                        imageName r.Image2 ++ ".zst") image2 from_root to_root
                    have hcm := createAndSend_mutexes env
                      { mutexes := wB.mutexes, files := wB.files, images := wB.images, sn := sn2 }
                      (imageName r.Image1) (imageName r.Image2)
                      ("/tmp/delta-patch-from-" ++ imageName r.Image1 ++ "-to-" ++
                        imageName r.Image2 ++ ".zst") image2 from_root to_root
                    simp only [] at hcf hcm
                    split
                    · refine fin _ _ (fun p hp1 hp2 => by rw [hcf p hp1 hp2, hfB p]) ?_
                      rcases hcm with hcm | hcm
                      · exact Or.inl (by rw [hcm, hmB])
                      · exact Or.inr (by rw [hcm, hmB])
                    · refine fin _ _ (fun p hp1 hp2 => by rw [hcf p hp1 hp2, hfB p]) ?_
                      rcases hcm with hcm | hcm
                      · exact Or.inl (by rw [hcm, hmB])
                      · exact Or.inr (by rw [hcm, hmB])

/-- C13: the name of a reference is the text after its last `/` (all of it when there is no
`/`), so it holds no `/` and keeps its colons; the handler keys its mutex and looks for the
cached file at `/tmp/delta-patch-from-<base>-to-<target>.zst`, writes no file but that one and
the same path without `.zst`, and on the compute path the differ's output is the file without
`.zst`, whose bytes the compressor turns into the file with `.zst`. -/
theorem patch_paths (env : Env) (w : World) (r : CalcImageDiffsRequest) :
    (∀ ref : String, '/' ∉ (imageName ref).data ∧
      ∃ pre, ref.data = pre ++ (imageName ref).data ∧ (pre = [] ∨ pre.getLast? = some '/')) ∧
    (∀ ref : String, '/' ∉ ref.data → imageName ref = ref) ∧
    patchPath r =
      "/tmp/delta-patch-from-" ++ imageName r.Image1 ++ "-to-" ++ imageName r.Image2 ++ ".zst" ∧
    patchPath r = rawPatchPath r ++ ".zst" ∧
    (assoc (CalculateDeltaDiffs env w r).world.mutexes (patchPath r)).isSome ∧
    (∀ p, p ≠ patchPath r →
      assoc (CalculateDeltaDiffs env w r).world.mutexes p = assoc w.mutexes p) ∧
    (∀ p, p ≠ rawPatchPath r → p ≠ patchPath r →
      assoc (CalculateDeltaDiffs env w r).world.files p = assoc w.files p) ∧
    (∀ bytes, assoc w.files (patchPath r) = some bytes →
      assoc w.mutexes (patchPath r) ≠ some true →
      (CalculateDeltaDiffs env w r).sent = (sendFile env bytes).2) ∧
    (∀ (image2 : Image) (from_root to_root : String) (patch z : List Nat),
      env.rsync to_root from_root = some patch →
      env.zstd patch = some z →
      assoc (createAndSend env w (imageName r.Image1) (imageName r.Image2) (patchPath r) image2
        from_root to_root).2.2.files (rawPatchPath r) = some patch ∧
      assoc (createAndSend env w (imageName r.Image1) (imageName r.Image2) (patchPath r) image2
        from_root to_root).2.2.files (patchPath r) = some z) := by
  obtain ⟨hfiles, m0, hm0, hs0, hmut⟩ := CalculateDeltaDiffs_world env w r
  have hm0' : ∀ p, p ≠ patchPath r → assoc m0 p = assoc w.mutexes p := by
    intro p hp
    rcases hm0 with h | h
    · rw [h]
    · rw [h, assoc_append_other _ _ _ _ hp]
  refine ⟨imageName_spec, imageName_no_slash, rfl, rfl, ?_, ?_, hfiles, ?_, ?_⟩
  · rcases hmut with h | h | h
    · rw [h]; exact hs0
    · rw [h, assoc_setLock_self _ _ _ hs0]; rfl
    · rw [h, assoc_setLock_self _ _ _ (by rw [assoc_setLock_self _ _ _ hs0]; rfl)]; rfl
  · intro p hp
    rcases hmut with h | h | h
    · rw [h, hm0' p hp]
    · rw [h, assoc_setLock_other _ _ _ _ hp, hm0' p hp]
    · rw [h, assoc_setLock_other _ _ _ _ hp, assoc_setLock_other _ _ _ _ hp, hm0' p hp]
  · intro bytes hfile hfree
    rw [CalculateDeltaDiffs_hit env w r bytes hfile hfree]
  · intro image2 from_root to_root patch z hr hz
    exact createAndSend_written env w _ _ _ image2 from_root to_root patch z hr hz

set_option maxRecDepth 100000 in
theorem patch_paths_witness :
    (imageName "docker.io/library/alpine:3.15.10" = "alpine:3.15.10" ∧
      patchPath alpineRequest = "/tmp/delta-patch-from-alpine:3.15.10-to-alpine:latest.zst" ∧
      rawPatchPath alpineRequest = "/tmp/delta-patch-from-alpine:3.15.10-to-alpine:latest" ∧
      (CalculateDeltaDiffs workingEnv freshWorld alpineRequest).world.files =
        [("/tmp/delta-patch-from-alpine:3.15.10-to-alpine:latest.zst",
            [40, 181, 47, 253, 114, 115, 121, 110, 99]),
         ("/tmp/delta-patch-from-alpine:3.15.10-to-alpine:latest", [114, 115, 121, 110, 99])] ∧
      workingEnv.rsync "/to" "/from" = some [114, 115, 121, 110, 99] ∧
      workingEnv.zstd [114, 115, 121, 110, 99] =
        some [40, 181, 47, 253, 114, 115, 121, 110, 99]) ∧
    (assoc (createAndSend workingEnv freshWorld (imageName alpineRequest.Image1)
        (imageName alpineRequest.Image2) (patchPath alpineRequest) alpineImage
        "/from" "/to").2.2.files (rawPatchPath alpineRequest) = some [114, 115, 121, 110, 99] ∧
      assoc (createAndSend workingEnv freshWorld (imageName alpineRequest.Image1)
        (imageName alpineRequest.Image2) (patchPath alpineRequest) alpineImage
        "/from" "/to").2.2.files (patchPath alpineRequest) =
          some [40, 181, 47, 253, 114, 115, 121, 110, 99]) ∧
    imageName "alpine:latest" = "alpine:latest" :=
  ⟨⟨by decide, by decide, by decide, by decide, rfl, rfl⟩,
   (patch_paths workingEnv freshWorld alpineRequest).2.2.2.2.2.2.2.2 alpineImage "/from" "/to"
     [114, 115, 121, 110, 99] [40, 181, 47, 253, 114, 115, 121, 110, 99] rfl rfl,
   (patch_paths workingEnv freshWorld alpineRequest).2.1 "alpine:latest" (by decide)⟩

set_option maxRecDepth 100000 in
/-- C14, counterexample: the base reference is empty.  With a file at the path of the empty
base name the handler returns OK having sent that file.  With no file there the first request
returns `InvalidArgument`, and the same request made again on the server as the first one left
it does not return: it waits for the mutex of the path. -/
theorem calculateDeltaDiffs_empty_reference_hit :
    ((CalculateDeltaDiffs workingEnv emptyNameSeeded
          ⟨"", "docker.io/library/alpine:latest"⟩).ending = .returned ⟨Code.OK, ""⟩ ∧
      (CalculateDeltaDiffs workingEnv emptyNameSeeded
          ⟨"", "docker.io/library/alpine:latest"⟩).sent = [cachedPatch]) ∧
    ((CalculateDeltaDiffs workingEnv freshWorld
          ⟨"", "docker.io/library/alpine:latest"⟩).ending =
        .returned ⟨Code.InvalidArgument, "image references are required"⟩ ∧
      assoc (CalculateDeltaDiffs workingEnv freshWorld
          ⟨"", "docker.io/library/alpine:latest"⟩).world.files
        (patchPath ⟨"", "docker.io/library/alpine:latest"⟩) = none ∧
      (CalculateDeltaDiffs workingEnv
          (CalculateDeltaDiffs workingEnv freshWorld
            ⟨"", "docker.io/library/alpine:latest"⟩).world
          ⟨"", "docker.io/library/alpine:latest"⟩).ending = .blocked) := by
  refine ⟨⟨by decide, by decide⟩, by decide, by decide, by decide⟩

/-- C14, amended: for a request whose base or target reference is empty, received while the
mutex of its patch path is not held: when no file lies at the patch path of the two names the
handler returns `InvalidArgument` and sends no chunk; when a file lies there the handler sends
it instead, the check for the cached file coming before the check of the references. -/
theorem calculateDeltaDiffs_empty_reference (env : Env) (w : World)
    (r : CalcImageDiffsRequest)
    (hempty : r.Image1 = "" ∨ r.Image2 = "")
    (hfree : assoc w.mutexes (patchPath r) ≠ some true) :
    (assoc w.files (patchPath r) = none →
      (CalculateDeltaDiffs env w r).ending =
        .returned ⟨Code.InvalidArgument, "image references are required"⟩ ∧
      (CalculateDeltaDiffs env w r).sent = []) ∧
    (∀ bytes, assoc w.files (patchPath r) = some bytes →
      (CalculateDeltaDiffs env w r).ending =
        .returned ((sendFile env bytes).1.getD ⟨Code.OK, ""⟩) ∧
      (CalculateDeltaDiffs env w r).sent = (sendFile env bytes).2) := by
  constructor
  · intro hfile
    rw [CalculateDeltaDiffs_empty_ref env w r hempty hfile hfree]
    exact ⟨rfl, rfl⟩
  · intro bytes hfile
    rw [CalculateDeltaDiffs_hit env w r bytes hfile hfree]
    exact ⟨rfl, rfl⟩

set_option maxRecDepth 100000 in
theorem calculateDeltaDiffs_empty_reference_witness :
    (("" : String) = "" ∨ "docker.io/library/alpine:latest" = "") ∧
    assoc freshWorld.mutexes (patchPath ⟨"", "docker.io/library/alpine:latest"⟩) ≠ some true ∧
    assoc freshWorld.files (patchPath ⟨"", "docker.io/library/alpine:latest"⟩) = none ∧
    ((CalculateDeltaDiffs workingEnv freshWorld ⟨"", "docker.io/library/alpine:latest"⟩).ending =
        .returned ⟨Code.InvalidArgument, "image references are required"⟩ ∧
      (CalculateDeltaDiffs workingEnv freshWorld ⟨"", "docker.io/library/alpine:latest"⟩).sent =
        []) :=
  ⟨Or.inl rfl, by decide, rfl,
   (calculateDeltaDiffs_empty_reference workingEnv freshWorld
     ⟨"", "docker.io/library/alpine:latest"⟩ (Or.inl rfl) (by decide)).1 rfl⟩

/-! ## Client -/

theorem foldl_choose (p : String → Bool) (l : List String) (init : String) :
    l.foldl (fun acc name => if p name then name else acc) init =
      ((l.filter p).getLast?).getD init := by
  induction l generalizing init with
  | nil => rfl
  | cons x xs ih =>
    rw [List.foldl_cons, ih]
    by_cases hx : p x = true
    · simp only [hx, if_true, List.filter_cons_of_pos]
      cases hf : xs.filter p with
      | nil => rfl
      | cons y ys =>
        rw [List.getLast?_cons_cons,
          List.getLast?_eq_getLast (y :: ys) (List.cons_ne_nil y ys)]
        rfl
    · rw [List.filter_cons_of_neg hx]
      simp [hx]

/-- C15, counterexample: the only local image is a mirror copy whose reference contains the
target's text before `:` but does not begin with it; the client takes it as the base. -/
theorem chooseBase_takes_mirror_copy :
    chooseBase mirrorList "docker.io/library/alpine:latest" =
      "registry.example/mirror/docker.io/library/alpine:3.14" ∧
    beforeColon "docker.io/library/alpine:latest" = "docker.io/library/alpine" ∧
    ("docker.io/library/alpine".data.isPrefixOf
      "registry.example/mirror/docker.io/library/alpine:3.14".data) = false := by
  refine ⟨by decide, by decide, by decide⟩

/-- C15, amended: the base the client chooses is the last image of the list whose reference
contains the target's text before its first `:` and differs from the target's reference; when
no image of the list passes this test the base is the empty string. -/
theorem chooseBase_last_containing (image_list : List String) (image2ref : String) :
    chooseBase image_list image2ref =
      ((image_list.filter (olderVersion image2ref)).getLast?).getD "" ∧
    (chooseBase image_list image2ref = "" ∨
      (chooseBase image_list image2ref ∈ image_list ∧
        Contains (chooseBase image_list image2ref) (beforeColon image2ref) = true ∧
        chooseBase image_list image2ref ≠ image2ref)) ∧
    ((∀ name ∈ image_list, olderVersion image2ref name = false) →
      chooseBase image_list image2ref = "") := by
  have h : chooseBase image_list image2ref =
      ((image_list.filter (olderVersion image2ref)).getLast?).getD "" :=
    foldl_choose (olderVersion image2ref) image_list ""
  refine ⟨h, ?_, ?_⟩
  · rw [h]
    cases hl : (image_list.filter (olderVersion image2ref)).getLast? with
    | none => exact Or.inl rfl
    | some x =>
      right
      have hx : x ∈ image_list.filter (olderVersion image2ref) :=
        List.mem_of_getLast?_eq_some hl
      rw [List.mem_filter] at hx
      have ho := hx.2
      simp only [olderVersion, Bool.and_eq_true, bne_iff_ne, ne_eq] at ho
      exact ⟨hx.1, ho.1, ho.2⟩
  · intro hnone
    rw [h]
    have : image_list.filter (olderVersion image2ref) = [] := by
      rw [List.filter_eq_nil_iff]
      intro a ha
      simp [hnone a ha]
    rw [this]
    rfl

set_option maxRecDepth 100000 in
theorem chooseBase_last_containing_witness :
    (∀ name ∈ ["docker.io/library/busybox:1", "docker.io/library/alpine:latest"],
      olderVersion "docker.io/library/alpine:latest" name = false) ∧
    chooseBase ["docker.io/library/alpine:3.14", "docker.io/library/busybox:1",
      "docker.io/library/alpine:3.15.10", "docker.io/library/alpine:latest"]
      "docker.io/library/alpine:latest" = "docker.io/library/alpine:3.15.10" ∧
    chooseBase ["docker.io/library/busybox:1", "docker.io/library/alpine:latest"]
      "docker.io/library/alpine:latest" = "" :=
  ⟨by decide, by decide,
   (chooseBase_last_containing ["docker.io/library/busybox:1", "docker.io/library/alpine:latest"]
     "docker.io/library/alpine:latest").2.2 (by decide)⟩

theorem receiveLoop_all (chunks : List (List Nat)) (file : List Nat) (written : Nat) :
    receiveLoop none chunks file written = (file ++ chunks.flatten, false) := by
  induction chunks generalizing file written with
  | nil => simp [receiveLoop]
  | cons c rest ih =>
    unfold receiveLoop
    simp [ih, List.append_assoc]

set_option maxRecDepth 100000 in
/-- C16, counterexample: two chunks arrive and then the stream breaks with a transport error;
the client keeps the partial file, prints nothing about the stream, runs the decompressor on
the partial file and goes on, exactly as when the same chunks are followed by a clean end. -/
theorem receive_partial_then_decompress :
    (receiveAndDecompress (fun _ => none) none [] "alpine:3.15.10" "alpine:latest"
        ⟨[[40, 181, 47], [253, 0]], .transportError "connection reset"⟩) =
      ⟨[("/tmp/delta-diff-patch-from-alpine:3.15.10-to-alpine:latest.zst",
          [40, 181, 47, 253, 0])],
        ["zstd -fd /tmp/delta-diff-patch-from-alpine:3.15.10-to-alpine:latest.zst"],
        ["WARNING (decompress command)"], true⟩ ∧
    (receiveAndDecompress (fun _ => none) none [] "alpine:3.15.10" "alpine:latest"
        ⟨[[40, 181, 47], [253, 0]], .transportError "connection reset"⟩) =
      (receiveAndDecompress (fun _ => none) none [] "alpine:3.15.10" "alpine:latest"
        ⟨[[40, 181, 47], [253, 0]], .eof⟩) := by
  refine ⟨by decide, rfl⟩

/-- C16, amended: whether the stream ends cleanly or with a transport error, the output file,
emptied before the first chunk, holds (every write to it succeeding) exactly the concatenation
of the chunks received, in receive order; after a transport error it is not truncated. -/
theorem receive_keeps_every_chunk (unzstd : List Nat → Option (List Nat))
    (files : List (String × List Nat)) (n1 n2 : String) (chunks : List (List Nat))
    (ending : StreamEnd) :
    assoc (receiveAndDecompress unzstd none files n1 n2 ⟨chunks, ending⟩).files
      ("/tmp/delta-diff-patch-from-" ++ n1 ++ "-to-" ++ n2 ++ ".zst") = some chunks.flatten := by
  have hne : "/tmp/delta-diff-patch-from-" ++ n1 ++ "-to-" ++ n2 ++ ".zst" ≠
      "/tmp/delta-diff-patch-from-" ++ n1 ++ "-to-" ++ n2 := by
    intro h
    have h' := congrArg String.length h
    simp only [String.length_append] at h'
    have h4 : ".zst".length = 4 := by decide
    omega
  unfold receiveAndDecompress
  simp only [receiveLoop_all, List.nil_append]
  cases hu : unzstd chunks.flatten with
  | none => exact assoc_writeFile_self _ _ _
  | some raw =>
    simp only []
    rw [assoc_writeFile_other _ _ _ _ hne, assoc_writeFile_self]

set_option maxRecDepth 100000 in
theorem receive_keeps_every_chunk_witness :
    assoc (receiveAndDecompress (fun b => some (b.drop 4)) none [] "alpine:3.15.10"
        "alpine:latest" ⟨[[40, 181, 47], [253, 0, 7]], .eof⟩).files
      ("/tmp/delta-diff-patch-from-" ++ "alpine:3.15.10" ++ "-to-" ++ "alpine:latest" ++ ".zst") =
        some [40, 181, 47, 253, 0, 7] ∧
    assoc (receiveAndDecompress (fun b => some (b.drop 4)) none [] "alpine:3.15.10"
        "alpine:latest" ⟨[[40, 181, 47], [253, 0, 7]], .transportError "connection reset"⟩).files
      ("/tmp/delta-diff-patch-from-" ++ "alpine:3.15.10" ++ "-to-" ++ "alpine:latest" ++ ".zst") =
        some [40, 181, 47, 253, 0, 7] :=
  ⟨receive_keeps_every_chunk (fun b => some (b.drop 4)) [] "alpine:3.15.10" "alpine:latest"
     [[40, 181, 47], [253, 0, 7]] .eof,
   receive_keeps_every_chunk (fun b => some (b.drop 4)) [] "alpine:3.15.10" "alpine:latest"
     [[40, 181, 47], [253, 0, 7]] (.transportError "connection reset")⟩

/-! ## Concurrent requests -/

set_option maxRecDepth 100000 in
/-- C17: two requests for the same uncached pair whose map lookups both come before either
insert each put a mutex of their own in the map, each lock the one they find there, both miss
the cache and both run the differ; with the second request starting after the first has locked,
the same steps give one differ run and a cache hit for the second. -/
theorem concurrent_requests_both_compute :
    Sys.run twoRequests [0, 1, 0, 0, 1, 1, 0, 1, 0, 1, 0, 0, 0, 1, 1, 1] =
      some ⟨⟨some 1, [false, false], true, 2⟩,
        [⟨.done, false, some 0⟩, ⟨.done, false, some 1⟩]⟩ ∧
    (Sys.run twoRequests [0, 1, 0, 0, 1, 1, 0, 1]).map
        (fun s => (s.shared.locked, s.tasks.map (fun t => t.pc))) =
      some ([true, true], [Pc.differ, Pc.differ]) ∧
    Sys.run twoRequests [0, 0, 0, 1, 1, 0, 0, 0, 0, 0, 1, 1, 1, 1] =
      some ⟨⟨some 0, [false], true, 1⟩,
        [⟨.done, false, some 0⟩, ⟨.done, true, some 0⟩]⟩ ∧
    Sys.run twoRequests [0, 0, 0, 1, 1, 1] = none := by
  refine ⟨by decide, by decide, by decide, by decide⟩

/-! ## `GetManifest` -/

set_option maxRecDepth 100000 in
/-- C18: the server runs on linux/amd64 and holds both platforms of the image; a request for
linux/arm64 succeeds with the arm64 manifest, whose `config` points at the arm64 config, and
with the bytes of the amd64 config as `imageConfig`. -/
theorem getManifest_config_of_server_platform :
    (GetManifest "linux" "amd64" exampleTarget platformStore
        ⟨"docker.io/library/alpine:latest", "linux", "arm64"⟩).toOption.map
      (fun resp => (resp.Manifest.Desc.digest, resp.Manifest.D.get "config", resp.ImageConfig)) =
      some ("sha256:a32",
        some (.obj [("mediaType", .str "application/vnd.docker.container.image.v1+json"),
          ("digest", .str "sha256:c32"), ("size", .num "90")]),
        Bytes.json (platformConfig "amd64")) ∧
    ReadBlob platformStore ⟨"application/vnd.docker.container.image.v1+json", "sha256:c32", 90⟩ =
      .ok (Bytes.json (platformConfig "arm64")) ∧
    platformConfig "arm64" ≠ platformConfig "amd64" := by
  refine ⟨rfl, rfl, by decide⟩

end CargoSync
